import Mathlib

/-!
Shallow embedding of the loan/reservation consistency engine of the
OPERA_STRIX_1_API library-management backend (Django, `api/` app).

Data model (from `api/models.py`): `Usuario`, `Libro`, `Prestamo`, `Reserva`.
Operations (from `api/views.py` and `api/serializers.py`): checkout
(`crear_prestamo`), return (`devolver_libro`), renewal (`renovar_prestamo`),
reservation create/cancel/notify (`crear_reserva`, `cancelar_reserva`,
`notificar_disponibilidad`), catalog update (`actualizar_libro`), and the
administrative fine adjustment (`gestionar_multa`).

Conventions of the embedding:
* timestamps are integers (seconds); `timedelta.days` of a positive delta
  becomes truncated division by 86400;
* monetary amounts (`multas`, `multaGenerada`) are rationals;
* each distinct error response of the source is one `ApiError` constructor;
* the database tables are lists of rows; row order inside a table is not
  observable (every read in the source either filters, counts, sorts with
  an explicit `order_by`, or fetches by primary key).
-/

/-- Roles of `Usuario.ROLES` in `models.py`. -/
inductive Rol
  | usuario
  | bibliotecario
  | admin
deriving DecidableEq, Repr

/-- The fields of `Usuario` (`models.py`) that the core logic reads. -/
structure Usuario where
  id : Nat
  rol : Rol
  activo : Bool
  multas : Rat
deriving DecidableEq, Repr

/-- States of `Libro.ESTADOS` in `models.py`. -/
inductive EstadoLibro
  | disponible
  | agotado
  | enMantenimiento
deriving DecidableEq, Repr

/-- The fields of `Libro` (`models.py`) that the core logic reads. -/
structure Libro where
  id : Nat
  copiasDisponibles : Int
  copiasTotal : Int
  estado : EstadoLibro
deriving DecidableEq, Repr

/-- `Libro.save` (`models.py` lines 76-82): derives `estado` from
`copiasDisponibles` before persisting.  The first branch fires whenever
`copiasDisponibles == 0`, regardless of the current `estado`. -/
def libroSave (l : Libro) : Libro :=
  if l.copiasDisponibles = 0 then { l with estado := .agotado }
  else if 0 < l.copiasDisponibles ∧ l.estado = .agotado then
    { l with estado := .disponible }
  else l

/-- States of `Prestamo.ESTADOS` in `models.py`. -/
inductive EstadoPrestamo
  | activo
  | devuelto
  | vencido
deriving DecidableEq, Repr

/-- The fields of `Prestamo` (`models.py`). `usuario`/`libro` are the
foreign-key ids. -/
structure Prestamo where
  id : Nat
  usuario : Nat
  libro : Nat
  fechaPrestamo : Int
  fechaDevolucionEsperada : Int
  fechaDevolucionReal : Option Int
  diasRetraso : Int
  multaGenerada : Rat
  estado : EstadoPrestamo
  renovaciones : Int
deriving DecidableEq, Repr

/-- States of `Reserva.ESTADOS` in `models.py`. -/
inductive EstadoReserva
  | pendiente
  | notificada
  | completada
  | cancelada
deriving DecidableEq, Repr

/-- The fields of `Reserva` (`models.py`). -/
structure Reserva where
  id : Nat
  usuario : Nat
  libro : Nat
  fechaReserva : Int
  estado : EstadoReserva
  fechaNotificacion : Option Int
  fechaExpiracion : Option Int
  prioridad : Int
deriving DecidableEq, Repr

/-- The whole relational store: one list of rows per table, plus fresh
primary-key counters for the tables the modelled operations insert into. -/
structure LibState where
  usuarios : List Usuario
  libros : List Libro
  prestamos : List Prestamo
  reservas : List Reserva
  nextPrestamoId : Nat
  nextReservaId : Nat
deriving DecidableEq, Repr

/-- One constructor per distinct error response in the modelled handlers of
`views.py` / `serializers.py` / `auth_helpers.py`. -/
inductive ApiError
  | tokenInvalido
  | noPermisos
  | multasPendientes
  | usuarioInactivo
  | libroInexistente
  | sinCopiasDisponibles
  | libroNoDisponiblePrestamo
  | fechaDevolucionNoFutura
  | prestamoNoEncontrado
  | soloPropiosPrestamos
  | prestamoYaDevuelto
  | soloPrestamosActivos
  | limiteRenovaciones
  | fechaRequerida
  | reservaActivaExistente
  | libroConCopias
  | libroEnMantenimientoReserva
  | reservaNoEncontrada
  | soloPropiasReservas
  | reservaNoCancelable
  | parametroLibroRequerido
  | libroNoEncontrado
  | sinReservasPendientes
  | usuarioNoEncontrado
  | montoNegativo
  | copiasExcedenTotal
  | totalMenorPrestadas
deriving DecidableEq, Repr

/-- Update the first element of a list satisfying `p` (a row fetched by
primary key and then `save`d in Django). -/
def updFirst (p : α → Bool) (f : α → α) : List α → List α
  | [] => []
  | a :: as => if p a then f a :: as else a :: updFirst p f as

/-- `obtener_usuario_desde_token` (`auth_helpers.py` lines 29-33): the token
lookup is `Usuario.objects.get(id=user_id, activo=True)`, so an inactive
user never authenticates. -/
def findUsuarioActivo (s : LibState) (uid : Nat) : Option Usuario :=
  s.usuarios.find? (fun u => u.id == uid && u.activo)

/-- `Usuario.objects.get(id=id)` without the `activo` filter, as used by
`gestionar_multa` and by `prestamo.usuario` foreign-key access. -/
def findUsuario (s : LibState) (uid : Nat) : Option Usuario :=
  s.usuarios.find? (fun u => u.id == uid)

/-- `Libro.objects.get(id=id)` / serializer primary-key lookup. -/
def findLibro (s : LibState) (lid : Nat) : Option Libro :=
  s.libros.find? (fun l => l.id == lid)

/-- `Prestamo.objects.get(id=id)`. -/
def findPrestamo (s : LibState) (pid : Nat) : Option Prestamo :=
  s.prestamos.find? (fun p => p.id == pid)

/-- `Reserva.objects.get(id=id)`. -/
def findReserva (s : LibState) (rid : Nat) : Option Reserva :=
  s.reservas.find? (fun r => r.id == rid)

/-- Status filter `estado__in=['pendiente', 'notificada']`. -/
def activaReserva (r : Reserva) : Bool :=
  r.estado == .pendiente || r.estado == .notificada

/-- Days of delay as computed in `devolver_libro` (`views.py` line 817):
`(fecha_actual - fecha_esperada).days`, taken only when
`fecha_actual > fecha_esperada`; a positive timedelta's `.days` is the
delta truncated to whole days. -/
def overdueDays (esperada actual : Int) : Int :=
  if esperada < actual then ((actual - esperada).toNat / 86400 : Nat) else 0

/-- Fine of `devolver_libro` (`views.py` lines 818-819): 10 Lempiras per
day of delay. -/
def overdueFine (esperada actual : Int) : Rat :=
  (overdueDays esperada actual : Int) * 10

/-- `crear_prestamo` (`views.py` lines 595-636) composed with the
`requiere_autenticacion` decorator and `PrestamoCreateSerializer`
(`serializers.py` lines 78-100).

The handler's own `if not usuario.activo` block (lines 606-611) is
over-indented into the fines branch after its `return`, so it is dead
code; inactive users are instead stopped by the token lookup. -/
def crearPrestamo (s : LibState) (actorId libroId : Nat) (fechaDev now : Int) :
    Except ApiError LibState :=
  match findUsuarioActivo s actorId with
  | none => .error .tokenInvalido
  | some u =>
    if 0 < u.multas then .error .multasPendientes
    else
      match findLibro s libroId with
      | none => .error .libroInexistente
      | some l =>
        if l.copiasDisponibles ≤ 0 then .error .sinCopiasDisponibles
        else if l.estado ≠ .disponible then .error .libroNoDisponiblePrestamo
        else if fechaDev ≤ now then .error .fechaDevolucionNoFutura
        else
          .ok { s with
            libros := updFirst (fun b => b.id == libroId)
              (fun b => libroSave { b with copiasDisponibles := b.copiasDisponibles - 1 })
              s.libros,
            prestamos := s.prestamos ++
              [{ id := s.nextPrestamoId, usuario := u.id, libro := l.id,
                 fechaPrestamo := now, fechaDevolucionEsperada := fechaDev,
                 fechaDevolucionReal := none, diasRetraso := 0,
                 multaGenerada := 0, estado := .activo, renovaciones := 0 }],
            nextPrestamoId := s.nextPrestamoId + 1 }

/-- `devolver_libro` (`views.py` lines 785-842) composed with the
authentication decorator. -/
def devolverLibro (s : LibState) (actorId prestamoId : Nat) (now : Int) :
    Except ApiError LibState :=
  match findUsuarioActivo s actorId with
  | none => .error .tokenInvalido
  | some u =>
    match findPrestamo s prestamoId with
    | none => .error .prestamoNoEncontrado
    | some p =>
      if u.rol = .usuario ∧ p.usuario ≠ u.id then .error .soloPropiosPrestamos
      else if p.estado ≠ .activo then .error .prestamoYaDevuelto
      else
        let dias := overdueDays p.fechaDevolucionEsperada now
        let multa : Rat := (dias : Rat) * 10
        let prestamos2 := updFirst (fun q => q.id == prestamoId)
          (fun q => { q with fechaDevolucionReal := some now,
                             diasRetraso := dias, multaGenerada := multa,
                             estado := .devuelto })
          s.prestamos
        let usuarios2 :=
          if 0 < multa then
            updFirst (fun w => w.id == p.usuario)
              (fun w => { w with multas := w.multas + multa }) s.usuarios
          else s.usuarios
        let libros2 := updFirst (fun b => b.id == p.libro)
          (fun b => libroSave { b with copiasDisponibles := b.copiasDisponibles + 1 })
          s.libros
        .ok { s with prestamos := prestamos2, usuarios := usuarios2,
                     libros := libros2 }

/-- `renovar_prestamo` (`views.py` lines 919-981).  The body is modelled over
an already-parsed optional date (`none` = field missing from the request). -/
def renovarPrestamo (s : LibState) (actorId prestamoId : Nat)
    (nuevaFecha : Option Int) (now : Int) : Except ApiError LibState :=
  match findUsuarioActivo s actorId with
  | none => .error .tokenInvalido
  | some u =>
    match findPrestamo s prestamoId with
    | none => .error .prestamoNoEncontrado
    | some p =>
      if u.rol = .usuario ∧ p.usuario ≠ u.id then .error .soloPropiosPrestamos
      else if p.estado ≠ .activo then .error .soloPrestamosActivos
      else if 2 ≤ p.renovaciones then .error .limiteRenovaciones
      else
        match nuevaFecha with
        | none => .error .fechaRequerida
        | some f =>
          if f ≤ now then .error .fechaDevolucionNoFutura
          else
            .ok { s with
              prestamos := updFirst (fun q => q.id == prestamoId)
                (fun q => { q with fechaDevolucionEsperada := f,
                                   renovaciones := q.renovaciones + 1 })
                s.prestamos }

/-- `crear_reserva` (`views.py` lines 1040-1097) composed with the
authentication decorator and `ReservaCreateSerializer`
(`serializers.py` lines 115-127). -/
def crearReserva (s : LibState) (actorId libroId : Nat) (now : Int) :
    Except ApiError LibState :=
  match findUsuarioActivo s actorId with
  | none => .error .tokenInvalido
  | some u =>
    if 0 < u.multas then .error .multasPendientes
    else if ¬u.activo then .error .usuarioInactivo
    else if s.reservas.any
        (fun r => r.usuario == u.id && r.libro == libroId && activaReserva r) then
      .error .reservaActivaExistente
    else
      match findLibro s libroId with
      | none => .error .libroInexistente
      | some l =>
        if 0 < l.copiasDisponibles then .error .libroConCopias
        else if l.estado = .enMantenimiento then .error .libroEnMantenimientoReserva
        else
          let n := (s.reservas.filter
            (fun r => r.libro == l.id && activaReserva r)).length
          .ok { s with
            reservas := s.reservas ++
              [{ id := s.nextReservaId, usuario := u.id, libro := l.id,
                 fechaReserva := now, estado := .pendiente,
                 fechaNotificacion := none, fechaExpiracion := none,
                 prioridad := (n : Int) + 1 }],
            nextReservaId := s.nextReservaId + 1 }

/-- Re-rank order of `cancelar_reserva`: `order_by('fechaReserva')`, with the
primary key as deterministic stand-in for the database's unspecified tie
order. -/
def reservaLe (a b : Reserva) : Prop :=
  a.fechaReserva < b.fechaReserva ∨
    (a.fechaReserva = b.fechaReserva ∧ a.id ≤ b.id)

instance : DecidableRel reservaLe := fun a b => by
  unfold reservaLe; infer_instance

instance : IsTotal Reserva reservaLe where
  total a b := by unfold reservaLe; omega

instance : IsTrans Reserva reservaLe where
  trans a b c := by unfold reservaLe; omega

/-- The `enumerate(reservas_activas, start=1)` loop of `cancelar_reserva`
(`views.py` lines 1273-1275): the i-th reservation of the sorted list gets
priority `i`, counting from `n`. -/
def assignFrom (n : Nat) : List Reserva → List Reserva
  | [] => []
  | q :: qs => { q with prioridad := (n : Int) } :: assignFrom (n + 1) qs

/-- `cancelar_reserva` (`views.py` lines 1239-1280).  The per-row saves of
the re-rank loop are modelled by regrouping the table into the untouched
rows followed by the re-ranked active rows of the book (row order inside a
table is not observable). -/
def cancelarReserva (s : LibState) (actorId reservaId : Nat) :
    Except ApiError LibState :=
  match findUsuarioActivo s actorId with
  | none => .error .tokenInvalido
  | some u =>
    match findReserva s reservaId with
    | none => .error .reservaNoEncontrada
    | some r =>
      if u.rol = .usuario ∧ r.usuario ≠ u.id then .error .soloPropiasReservas
      else if ¬(r.estado = .pendiente ∨ r.estado = .notificada) then
        .error .reservaNoCancelable
      else
        let rs1 := updFirst (fun q => q.id == reservaId)
          (fun q => { q with estado := .cancelada }) s.reservas
        let activas := List.insertionSort reservaLe
          (rs1.filter (fun q => q.libro == r.libro && activaReserva q))
        let otras := rs1.filter (fun q => !(q.libro == r.libro && activaReserva q))
        .ok { s with reservas := otras ++ assignFrom 1 activas }

/-- Selection order of `notificar_disponibilidad`:
`order_by('prioridad', 'fechaReserva')`, with the primary key as
deterministic stand-in for the database's unspecified tie order. -/
def notifLe (a b : Reserva) : Prop :=
  a.prioridad < b.prioridad ∨
    (a.prioridad = b.prioridad ∧
      (a.fechaReserva < b.fechaReserva ∨
        (a.fechaReserva = b.fechaReserva ∧ a.id ≤ b.id)))

instance : DecidableRel notifLe := fun a b => by
  unfold notifLe; infer_instance

instance : IsTotal Reserva notifLe where
  total a b := by unfold notifLe; omega

instance : IsTrans Reserva notifLe where
  trans a b c := by unfold notifLe; omega

/-- `notificar_disponibilidad` (`views.py` lines 1340-1388) composed with
`requiere_autenticacion` and `requiere_rol('bibliotecario', 'admin')`. -/
def notificarDisponibilidad (s : LibState) (actorId : Nat)
    (libroParam : Option Nat) (now : Int) : Except ApiError LibState :=
  match findUsuarioActivo s actorId with
  | none => .error .tokenInvalido
  | some u =>
    if ¬(u.rol = .bibliotecario ∨ u.rol = .admin) then .error .noPermisos
    else
      match libroParam with
      | none => .error .parametroLibroRequerido
      | some lid =>
        match findLibro s lid with
        | none => .error .libroNoEncontrado
        | some l =>
          if l.copiasDisponibles ≤ 0 then .error .sinCopiasDisponibles
          else
            match (List.insertionSort notifLe
                (s.reservas.filter
                  (fun q => q.libro == lid && q.estado == .pendiente))).head? with
            | none => .error .sinReservasPendientes
            | some sel =>
              .ok { s with
                reservas := updFirst (fun q => q.id == sel.id)
                  (fun q => { q with estado := .notificada,
                                     fechaNotificacion := some now,
                                     fechaExpiracion := some (now + 3 * 86400) })
                  s.reservas }

/-- The catalog-update payload fields of `LibroSerializer` that the core
rules inspect (`partial=True`: absent fields keep the stored value). -/
structure LibroUpdate where
  copiasDisponibles : Option Int
  copiasTotal : Option Int
  estado : Option EstadoLibro
deriving DecidableEq, Repr

/-- `actualizar_libro` (`views.py` lines 443-460) composed with the role
decorators and `LibroSerializer.validate` (`serializers.py` lines 44-62). -/
def actualizarLibro (s : LibState) (actorId libroId : Nat) (upd : LibroUpdate) :
    Except ApiError LibState :=
  match findUsuarioActivo s actorId with
  | none => .error .tokenInvalido
  | some u =>
    if ¬(u.rol = .bibliotecario ∨ u.rol = .admin) then .error .noPermisos
    else
      match findLibro s libroId with
      | none => .error .libroNoEncontrado
      | some l =>
        let disp := upd.copiasDisponibles.getD l.copiasDisponibles
        let total := upd.copiasTotal.getD l.copiasTotal
        if total < disp then .error .copiasExcedenTotal
        else if total < l.copiasTotal - l.copiasDisponibles then
          .error .totalMenorPrestadas
        else
          .ok { s with
            libros := updFirst (fun b => b.id == libroId)
              (fun b => libroSave { b with copiasDisponibles := disp,
                                           copiasTotal := total,
                                           estado := upd.estado.getD b.estado })
              s.libros }

/-- Actions of `gestionar_multa`. -/
inductive AccionMulta
  | agregar
  | reducir
  | establecer
deriving DecidableEq, Repr

/-- The three actions of `gestionar_multa` on the target's balance
(`views.py` lines 1931-1936): add, clamped subtract, set. -/
def aplicarMulta (accion : AccionMulta) (monto : Rat) : Usuario → Usuario :=
  match accion with
  | .agregar => fun w => { w with multas := w.multas + monto }
  | .reducir => fun w => { w with multas := max 0 (w.multas - monto) }
  | .establecer => fun w => { w with multas := monto }

/-- `gestionar_multa` (`views.py` lines 1898-1949) composed with the role
decorators, over an already-parsed action and amount. -/
def gestionarMulta (s : LibState) (actorId targetId : Nat)
    (accion : AccionMulta) (monto : Rat) : Except ApiError LibState :=
  match findUsuarioActivo s actorId with
  | none => .error .tokenInvalido
  | some u =>
    if ¬(u.rol = .bibliotecario ∨ u.rol = .admin) then .error .noPermisos
    else
      match findUsuario s targetId with
      | none => .error .usuarioNoEncontrado
      | some _ =>
        if monto < 0 then .error .montoNegativo
        else
          .ok { s with usuarios := updFirst (fun w => w.id == targetId) (aplicarMulta accion monto) s.usuarios }

/-- One request against the core: each constructor is one modelled endpoint
call with its already-parsed input and the request time. -/
inductive Op
  | crearPrestamo (actorId libroId : Nat) (fechaDev now : Int)
  | devolverLibro (actorId prestamoId : Nat) (now : Int)
  | renovarPrestamo (actorId prestamoId : Nat) (nuevaFecha : Option Int) (now : Int)
  | crearReserva (actorId libroId : Nat) (now : Int)
  | cancelarReserva (actorId reservaId : Nat)
  | notificarDisponibilidad (actorId : Nat) (libroParam : Option Nat) (now : Int)
  | actualizarLibro (actorId libroId : Nat) (upd : LibroUpdate)
  | gestionarMulta (actorId targetId : Nat) (accion : AccionMulta) (monto : Rat)
deriving DecidableEq, Repr

/-- Dispatch one request. -/
def step (s : LibState) : Op → Except ApiError LibState
  | .crearPrestamo a l f n => crearPrestamo s a l f n
  | .devolverLibro a p n => devolverLibro s a p n
  | .renovarPrestamo a p f n => renovarPrestamo s a p f n
  | .crearReserva a l n => crearReserva s a l n
  | .cancelarReserva a r => cancelarReserva s a r
  | .notificarDisponibilidad a l n => notificarDisponibilidad s a l n
  | .actualizarLibro a l u => actualizarLibro s a l u
  | .gestionarMulta a t ac m => gestionarMulta s a t ac m

/-- A rejected request leaves the store unchanged (every modelled handler
returns its error before any write). -/
def exec (s : LibState) (op : Op) : LibState :=
  match step s op with
  | .ok s' => s'
  | .error _ => s

/-- Run a sequence of requests. -/
def runOps (s : LibState) (ops : List Op) : LibState :=
  ops.foldl exec s

/-! ### Generic lemmas about `updFirst` and `find?` -/

theorem updFirst_of_forall_not {p : α → Bool} {f : α → α} :
    ∀ {l : List α}, (∀ a ∈ l, p a = false) → updFirst p f l = l
  | [], _ => rfl
  | a :: as, h => by
    have ha := h a (List.mem_cons_self a as)
    simp only [updFirst, ha, Bool.false_eq_true, if_false, List.cons.injEq, true_and]
    exact updFirst_of_forall_not fun x hx => h x (List.mem_cons_of_mem a hx)

theorem updFirst_decomp (f : α → α) {p : α → Bool} :
    ∀ {l : List α} {a : α}, l.find? p = some a →
      ∃ l₁ l₂, l = l₁ ++ a :: l₂ ∧ (∀ x ∈ l₁, p x = false) ∧
        updFirst p f l = l₁ ++ f a :: l₂
  | [], a, h => by simp [List.find?] at h
  | b :: bs, a, h => by
    rw [List.find?_cons] at h
    by_cases hb : p b
    · simp only [hb, if_true, Option.some.injEq] at h
      subst h
      exact ⟨[], bs, by simp, by simp, by simp [updFirst, hb]⟩
    · simp only [hb, Bool.false_eq_true, if_false] at h
      obtain ⟨l₁, l₂, hdec, hall, hupd⟩ := updFirst_decomp f h
      refine ⟨b :: l₁, l₂, by simp [hdec], ?_, ?_⟩
      · intro x hx
        rcases List.mem_cons.1 hx with hx | hx
        · subst hx; simpa using hb
        · exact hall x hx
      · simp [updFirst, hb, hupd]

theorem find?_updFirst_eq {p : α → Bool} {f : α → α}
    (hp : ∀ x, p (f x) = p x) :
    ∀ {l : List α}, (updFirst p f l).find? p = (l.find? p).map f
  | [] => rfl
  | a :: as => by
    by_cases ha : p a
    · have hfa : p (f a) = true := by rw [hp]; exact ha
      simp [updFirst, ha, List.find?_cons, hfa]
    · have hfa : p (f a) = false := by rw [hp]; simpa using ha
      simp only [updFirst, ha, Bool.false_eq_true, if_false, List.find?_cons]
      rw [find?_updFirst_eq hp]

theorem find?_updFirst_disjoint {p q : α → Bool} {f : α → α}
    (h : ∀ x, p x = true → q x = false) (hq : ∀ x, q (f x) = q x) :
    ∀ {l : List α}, (updFirst p f l).find? q = l.find? q
  | [] => rfl
  | a :: as => by
    by_cases ha : p a
    · have hqa : q a = false := h a ha
      have hqfa : q (f a) = false := by rw [hq]; exact hqa
      simp [updFirst, ha, List.find?_cons, hqa, hqfa]
    · simp only [updFirst, ha, Bool.false_eq_true, if_false, List.find?_cons]
      rw [find?_updFirst_disjoint h hq]

theorem mem_updFirst {p : α → Bool} {f : α → α} :
    ∀ {l : List α} {b : α}, b ∈ updFirst p f l →
      b ∈ l ∨ ∃ a, a ∈ l ∧ p a = true ∧ b = f a
  | [], b, h => by simp [updFirst] at h
  | a :: as, b, h => by
    by_cases ha : p a
    · simp only [updFirst, ha, if_true] at h
      rcases List.mem_cons.1 h with h | h
      · exact Or.inr ⟨a, List.mem_cons_self a as, ha, h⟩
      · exact Or.inl (List.mem_cons_of_mem a h)
    · simp only [updFirst, ha, Bool.false_eq_true, if_false] at h
      rcases List.mem_cons.1 h with h | h
      · exact Or.inl (h ▸ List.mem_cons_self a as)
      · rcases mem_updFirst h with h | ⟨x, hx, hpx, hbx⟩
        · exact Or.inl (List.mem_cons_of_mem a h)
        · exact Or.inr ⟨x, List.mem_cons_of_mem a hx, hpx, hbx⟩

theorem mem_updFirst_of_not {p : α → Bool} {f : α → α} :
    ∀ {l : List α} {b : α}, b ∈ l → p b = false → b ∈ updFirst p f l
  | a :: as, b, hb, hpb => by
    by_cases ha : p a
    · simp only [updFirst, ha, if_true]
      rcases List.mem_cons.1 hb with h | h
      · subst h; rw [ha] at hpb; cases hpb
      · exact List.mem_cons_of_mem _ h
    · simp only [updFirst, ha, Bool.false_eq_true, if_false]
      rcases List.mem_cons.1 hb with h | h
      · exact h ▸ List.mem_cons_self a _
      · exact List.mem_cons_of_mem _ (mem_updFirst_of_not h hpb)

theorem countP_updFirst_eq {p q : α → Bool} {f : α → α}
    (h : ∀ x, q (f x) = q x) :
    ∀ {l : List α}, (updFirst p f l).countP q = l.countP q
  | [] => rfl
  | a :: as => by
    by_cases ha : p a
    · simp [updFirst, ha, List.countP_cons, h a]
    · simp only [updFirst, ha, Bool.false_eq_true, if_false, List.countP_cons]
      rw [countP_updFirst_eq h]

theorem map_updFirst {p : α → Bool} {f : α → α} {g : α → β}
    (h : ∀ x, g (f x) = g x) :
    ∀ {l : List α}, (updFirst p f l).map g = l.map g
  | [] => rfl
  | a :: as => by
    by_cases ha : p a
    · simp [updFirst, ha, h a]
    · simp only [updFirst, ha, Bool.false_eq_true, if_false, List.map_cons]
      rw [map_updFirst h]

theorem find?_isSome_updFirst {p q : α → Bool} {f : α → α}
    (h : ∀ x, q (f x) = q x) :
    ∀ {l : List α}, ((updFirst p f l).find? q).isSome = (l.find? q).isSome
  | [] => rfl
  | a :: as => by
    by_cases ha : p a
    · by_cases hqa : q a
      · have : q (f a) = true := by rw [h a]; exact hqa
        simp [updFirst, ha, List.find?_cons, hqa, this]
      · have : q (f a) = false := by rw [h a]; simpa using hqa
        simp [updFirst, ha, List.find?_cons, hqa, this]
    · by_cases hqa : q a
      · simp [updFirst, ha, List.find?_cons, hqa]
      · simp only [updFirst, ha, Bool.false_eq_true, if_false, List.find?_cons,
          hqa, if_false]
        rw [find?_isSome_updFirst h]

theorem find?_key_eq_of_nodup {g : α → Nat} :
    ∀ {l : List α} {a : α}, (l.map g).Nodup → a ∈ l →
      l.find? (fun x => g x == g a) = some a
  | b :: bs, a, hnd, hmem => by
    rw [List.find?_cons]
    rcases List.mem_cons.1 hmem with h | h
    · subst h; simp
    · have hne : g b ≠ g a := by
        intro he
        have : g a ∈ bs.map g := List.mem_map_of_mem g h
        rw [← he] at this
        exact (List.nodup_cons.1 hnd).1 this
      have hbf : (g b == g a) = false := by simpa using hne
      simp only [hbf]
      exact find?_key_eq_of_nodup (List.nodup_cons.1 hnd).2 h

theorem find?_key_and_of_nodup {g : α → Nat} {q : α → Bool} {k : Nat} :
    ∀ {l : List α} {u : α}, (l.map g).Nodup →
      l.find? (fun x => g x == k) = some u →
      l.find? (fun x => g x == k && q x) = if q u then some u else none
  | b :: bs, u, hnd, h => by
    rw [List.find?_cons] at h
    rw [List.find?_cons]
    by_cases hb : (g b == k) = true
    · simp only [hb, if_true, Option.some.injEq] at h
      subst h
      by_cases hq : q b
      · simp [hb, hq]
      · simp only [hb, hq, Bool.and_false, Bool.false_eq_true, if_false]
        rw [List.find?_eq_none]
        intro x hx
        have hgx : g x ≠ k := by
          intro he
          have hk : g b = k := by simpa using hb
          have : g x ∈ bs.map g := List.mem_map_of_mem g hx
          rw [he, ← hk] at this
          exact (List.nodup_cons.1 hnd).1 this
        simp [hgx]
    · simp only [hb, Bool.false_eq_true, if_false] at h
      have hb2 : (g b == k && q b) = false := by
        simp only [Bool.and_eq_false_iff]
        left
        simpa using hb
      simp only [hb2, Bool.false_eq_true, if_false]
      exact find?_key_and_of_nodup (List.nodup_cons.1 hnd).2 h

theorem find?_append_left {p : α → Bool} {l₁ l₂ : List α} {a : α}
    (h : l₁.find? p = some a) : (l₁ ++ l₂).find? p = some a := by
  rw [List.find?_append, h]; rfl

/-! ### Field-preservation facts about `libroSave` -/

theorem libroSave_id (l : Libro) : (libroSave l).id = l.id := by
  unfold libroSave
  split
  · rfl
  split
  · rfl
  · rfl

theorem libroSave_copias (l : Libro) :
    (libroSave l).copiasDisponibles = l.copiasDisponibles := by
  unfold libroSave
  split
  · rfl
  split
  · rfl
  · rfl

theorem libroSave_total (l : Libro) : (libroSave l).copiasTotal = l.copiasTotal := by
  unfold libroSave
  split
  · rfl
  split
  · rfl
  · rfl

/-! ### Success characterizations of the operations -/

theorem crearPrestamo_ok_iff {s : LibState} {a lid : Nat} {f n : Int}
    {s' : LibState} :
    crearPrestamo s a lid f n = .ok s' ↔
      ∃ u l, findUsuarioActivo s a = some u ∧ ¬0 < u.multas ∧
        findLibro s lid = some l ∧ ¬l.copiasDisponibles ≤ 0 ∧
        l.estado = .disponible ∧ ¬f ≤ n ∧
        s' = { s with
          libros := updFirst (fun b => b.id == lid)
            (fun b => libroSave { b with copiasDisponibles := b.copiasDisponibles - 1 })
            s.libros,
          prestamos := s.prestamos ++
            [{ id := s.nextPrestamoId, usuario := u.id, libro := l.id,
               fechaPrestamo := n, fechaDevolucionEsperada := f,
               fechaDevolucionReal := none, diasRetraso := 0,
               multaGenerada := 0, estado := .activo, renovaciones := 0 }],
          nextPrestamoId := s.nextPrestamoId + 1 } := by
  unfold crearPrestamo
  cases hu : findUsuarioActivo s a with
  | none => simp
  | some u =>
    simp only [Option.some.injEq]
    by_cases hm : 0 < u.multas
    · simp [hm]
    · simp only [hm, if_false]
      cases hl : findLibro s lid with
      | none => simp
      | some l =>
        simp only [Option.some.injEq]
        by_cases hc : l.copiasDisponibles ≤ 0
        · simp [hc]
        · simp only [hc, if_false]
          by_cases he : l.estado = .disponible
          · simp only [he, ne_eq, not_true_eq_false, if_false]
            by_cases hf : f ≤ n
            · simp [hf]
            · simp only [hf, if_false, Except.ok.injEq]
              constructor
              · intro h
                exact ⟨u, l, rfl, hm, rfl, hc, he, not_false, h.symm⟩
              · rintro ⟨u', l', hu', h1, hl', h2, h3, h4, hs⟩
                subst hu'
                subst hl'
                exact hs.symm
          · simp [he, hc]

theorem devolverLibro_ok_iff {s : LibState} {a pid : Nat} {n : Int}
    {s' : LibState} :
    devolverLibro s a pid n = .ok s' ↔
      ∃ u p, findUsuarioActivo s a = some u ∧ findPrestamo s pid = some p ∧
        ¬(u.rol = .usuario ∧ p.usuario ≠ u.id) ∧ p.estado = .activo ∧
        s' = { s with
          prestamos := updFirst (fun q => q.id == pid)
            (fun q => { q with
              fechaDevolucionReal := some n,
              diasRetraso := overdueDays p.fechaDevolucionEsperada n,
              multaGenerada := overdueFine p.fechaDevolucionEsperada n,
              estado := .devuelto })
            s.prestamos,
          usuarios :=
            if 0 < overdueFine p.fechaDevolucionEsperada n then
              updFirst (fun w => w.id == p.usuario)
                (fun w => { w with
                  multas := w.multas + overdueFine p.fechaDevolucionEsperada n })
                s.usuarios
            else s.usuarios,
          libros := updFirst (fun b => b.id == p.libro)
            (fun b => libroSave { b with copiasDisponibles := b.copiasDisponibles + 1 })
            s.libros } := by
  unfold devolverLibro
  cases hu : findUsuarioActivo s a with
  | none => simp
  | some u =>
    simp only [Option.some.injEq]
    cases hp : findPrestamo s pid with
    | none => simp
    | some p =>
      simp only [Option.some.injEq]
      by_cases hown : u.rol = .usuario ∧ p.usuario ≠ u.id
      · simp [hown]
      · rw [if_neg hown]
        by_cases hact : p.estado = .activo
        · rw [if_neg (not_not_intro hact)]
          simp only [Except.ok.injEq]
          constructor
          · intro h
            exact ⟨u, p, rfl, rfl, hown, hact, h.symm⟩
          · rintro ⟨u', p', hu', hp', h1, h2, hs⟩
            subst hu'
            subst hp'
            exact hs.symm
        · rw [if_pos (by simpa using hact)]
          simp [hact]

theorem renovarPrestamo_ok_iff {s : LibState} {a pid : Nat}
    {nuevaFecha : Option Int} {n : Int} {s' : LibState} :
    renovarPrestamo s a pid nuevaFecha n = .ok s' ↔
      ∃ u p f, findUsuarioActivo s a = some u ∧ findPrestamo s pid = some p ∧
        ¬(u.rol = .usuario ∧ p.usuario ≠ u.id) ∧ p.estado = .activo ∧
        ¬2 ≤ p.renovaciones ∧ nuevaFecha = some f ∧ ¬f ≤ n ∧
        s' = { s with
          prestamos := updFirst (fun q => q.id == pid)
            (fun q => { q with fechaDevolucionEsperada := f,
                               renovaciones := q.renovaciones + 1 })
            s.prestamos } := by
  unfold renovarPrestamo
  cases hu : findUsuarioActivo s a with
  | none => simp
  | some u =>
    simp only [Option.some.injEq]
    cases hp : findPrestamo s pid with
    | none => simp
    | some p =>
      simp only [Option.some.injEq]
      by_cases hown : u.rol = .usuario ∧ p.usuario ≠ u.id
      · simp [hown]
      · rw [if_neg hown]
        by_cases hact : p.estado = .activo
        · rw [if_neg (not_not_intro hact)]
          by_cases hren : 2 ≤ p.renovaciones
          · simp [hren]
          · rw [if_neg hren]
            cases hnf : nuevaFecha with
            | none => simp
            | some f =>
              simp only [Option.some.injEq]
              by_cases hf : f ≤ n
              · simp only [hf, if_true]
                constructor
                · intro h
                  cases h
                · rintro ⟨u', p', f', hu', hp', h1, h2, h3, hf', h4, hs⟩
                  subst hu'
                  subst hp'
                  subst hf'
                  exact absurd hf h4
              · rw [if_neg hf]
                simp only [Except.ok.injEq]
                constructor
                · intro h
                  exact ⟨u, p, f, rfl, rfl, hown, hact, hren, rfl, hf, h.symm⟩
                · rintro ⟨u', p', f', hu', hp', h1, h2, h3, hf', h4, hs⟩
                  subst hu'
                  subst hp'
                  subst hf'
                  exact hs.symm
        · rw [if_pos (by simpa using hact)]
          simp [hact]

theorem crearReserva_ok_iff {s : LibState} {a lid : Nat} {n : Int}
    {s' : LibState} :
    crearReserva s a lid n = .ok s' ↔
      ∃ u l, findUsuarioActivo s a = some u ∧ ¬0 < u.multas ∧ u.activo = true ∧
        (s.reservas.any
          (fun r => r.usuario == u.id && r.libro == lid && activaReserva r)) = false ∧
        findLibro s lid = some l ∧ ¬0 < l.copiasDisponibles ∧
        l.estado ≠ .enMantenimiento ∧
        s' = { s with
          reservas := s.reservas ++
            [{ id := s.nextReservaId, usuario := u.id, libro := l.id,
               fechaReserva := n, estado := .pendiente,
               fechaNotificacion := none, fechaExpiracion := none,
               prioridad := ((s.reservas.filter
                 (fun r => r.libro == l.id && activaReserva r)).length : Int) + 1 }],
          nextReservaId := s.nextReservaId + 1 } := by
  unfold crearReserva
  cases hu : findUsuarioActivo s a with
  | none => simp
  | some u =>
    simp only [Option.some.injEq]
    by_cases hm : 0 < u.multas
    · simp [hm]
    · rw [if_neg hm]
      by_cases hact : u.activo = true
      · rw [if_neg (by simp [hact])]
        by_cases hdup : (s.reservas.any
            (fun r => r.usuario == u.id && r.libro == lid && activaReserva r)) = true
        · rw [if_pos hdup]
          constructor
          · intro h
            cases h
          · rintro ⟨u', l', hu', h1, h2, hdup', h3⟩
            subst hu'
            rw [hdup] at hdup'
            cases hdup'
        · rw [if_neg hdup]
          simp only [Bool.not_eq_true] at hdup
          cases hl : findLibro s lid with
          | none => simp [hm, hact, hdup]
          | some l =>
            simp only [Option.some.injEq]
            by_cases hc : 0 < l.copiasDisponibles
            · simp [hc, hm, hact, hdup]
            · rw [if_neg hc]
              by_cases hmant : l.estado = .enMantenimiento
              · rw [if_pos hmant]
                simp [hmant, hm, hact, hdup]
              · rw [if_neg hmant]
                simp only [Except.ok.injEq]
                constructor
                · intro h
                  exact ⟨u, l, rfl, hm, hact, hdup, rfl, hc, hmant, h.symm⟩
                · rintro ⟨u', l', hu', h1, h2, h3, hl', h4, h5, hs⟩
                  subst hu'
                  subst hl'
                  exact hs.symm
      · rw [if_pos (by simpa using hact)]
        simp [hact]

theorem cancelarReserva_ok_iff {s : LibState} {a rid : Nat} {s' : LibState} :
    cancelarReserva s a rid = .ok s' ↔
      ∃ u r, findUsuarioActivo s a = some u ∧ findReserva s rid = some r ∧
        ¬(u.rol = .usuario ∧ r.usuario ≠ u.id) ∧
        (r.estado = .pendiente ∨ r.estado = .notificada) ∧
        s' = { s with
          reservas :=
            (updFirst (fun q => q.id == rid)
                (fun q => { q with estado := .cancelada }) s.reservas).filter
              (fun q => !(q.libro == r.libro && activaReserva q)) ++
            assignFrom 1 (List.insertionSort reservaLe
              ((updFirst (fun q => q.id == rid)
                  (fun q => { q with estado := .cancelada }) s.reservas).filter
                (fun q => q.libro == r.libro && activaReserva q))) } := by
  unfold cancelarReserva
  cases hu : findUsuarioActivo s a with
  | none => simp
  | some u =>
    simp only [Option.some.injEq]
    cases hr : findReserva s rid with
    | none => simp
    | some r =>
      simp only [Option.some.injEq]
      by_cases hown : u.rol = .usuario ∧ r.usuario ≠ u.id
      · simp [hown]
      · rw [if_neg hown]
        by_cases hst : r.estado = .pendiente ∨ r.estado = .notificada
        · rw [if_neg (not_not_intro hst)]
          simp only [Except.ok.injEq]
          constructor
          · intro h
            exact ⟨u, r, rfl, rfl, hown, hst, h.symm⟩
          · rintro ⟨u', r', hu', hr', h1, h2, hs⟩
            subst hu'
            subst hr'
            exact hs.symm
        · rw [if_pos hst]
          simp [hst]

theorem notificarDisponibilidad_ok_iff {s : LibState} {a : Nat}
    {libroParam : Option Nat} {n : Int} {s' : LibState} :
    notificarDisponibilidad s a libroParam n = .ok s' ↔
      ∃ u lid l sel, findUsuarioActivo s a = some u ∧
        (u.rol = .bibliotecario ∨ u.rol = .admin) ∧ libroParam = some lid ∧
        findLibro s lid = some l ∧ ¬l.copiasDisponibles ≤ 0 ∧
        (List.insertionSort notifLe
          (s.reservas.filter
            (fun q => q.libro == lid && q.estado == .pendiente))).head? = some sel ∧
        s' = { s with
          reservas := updFirst (fun q => q.id == sel.id)
            (fun q => { q with estado := .notificada,
                               fechaNotificacion := some n,
                               fechaExpiracion := some (n + 3 * 86400) })
            s.reservas } := by
  unfold notificarDisponibilidad
  cases hu : findUsuarioActivo s a with
  | none => simp
  | some u =>
    simp only [Option.some.injEq]
    by_cases hrol : u.rol = .bibliotecario ∨ u.rol = .admin
    · rw [if_neg (not_not_intro hrol)]
      cases hlp : libroParam with
      | none => simp
      | some lid =>
        simp only [Option.some.injEq]
        cases hl : findLibro s lid with
        | none => simp [hrol, hl]
        | some l =>
          simp only []
          by_cases hc : l.copiasDisponibles ≤ 0
          · simp [hc, hrol, hl]
          · rw [if_neg hc]
            cases hsel : (List.insertionSort notifLe
                (s.reservas.filter
                  (fun q => q.libro == lid && q.estado == .pendiente))).head? with
            | none => simp [hrol, hc, hl, hsel]
            | some sel =>
              constructor
              · intro h
                rw [Except.ok.injEq] at h
                exact ⟨u, lid, l, sel, rfl, hrol, rfl, hl, hc, hsel, h.symm⟩
              · rintro ⟨u', lid', l', sel', hu', h1, hlp', hl', h2, hsel', hs⟩
                subst hu'
                subst hlp'
                rw [hl] at hl'
                injection hl' with hl2
                subst hl2
                rw [hsel] at hsel'
                injection hsel' with hsel2
                subst hsel2
                rw [Except.ok.injEq]
                exact hs.symm
    · rw [if_pos hrol]
      simp [hrol]

theorem actualizarLibro_ok_iff {s : LibState} {a lid : Nat} {upd : LibroUpdate}
    {s' : LibState} :
    actualizarLibro s a lid upd = .ok s' ↔
      ∃ u l, findUsuarioActivo s a = some u ∧
        (u.rol = .bibliotecario ∨ u.rol = .admin) ∧ findLibro s lid = some l ∧
        ¬upd.copiasTotal.getD l.copiasTotal < upd.copiasDisponibles.getD l.copiasDisponibles ∧
        ¬upd.copiasTotal.getD l.copiasTotal < l.copiasTotal - l.copiasDisponibles ∧
        s' = { s with
          libros := updFirst (fun b => b.id == lid)
            (fun b => libroSave
              { b with copiasDisponibles := upd.copiasDisponibles.getD l.copiasDisponibles,
                       copiasTotal := upd.copiasTotal.getD l.copiasTotal,
                       estado := upd.estado.getD b.estado })
            s.libros } := by
  unfold actualizarLibro
  cases hu : findUsuarioActivo s a with
  | none => simp
  | some u =>
    simp only [Option.some.injEq]
    by_cases hrol : u.rol = .bibliotecario ∨ u.rol = .admin
    · rw [if_neg (not_not_intro hrol)]
      cases hl : findLibro s lid with
      | none => simp [hrol]
      | some l =>
        simp only [Option.some.injEq]
        by_cases h1 : upd.copiasTotal.getD l.copiasTotal <
            upd.copiasDisponibles.getD l.copiasDisponibles
        · rw [if_pos h1]
          constructor
          · intro h
            cases h
          · rintro ⟨u', l', hu', hx1, hl', hx2, hx3, hs⟩
            subst hu'
            subst hl'
            exact absurd h1 hx2
        · rw [if_neg h1]
          by_cases h2 : upd.copiasTotal.getD l.copiasTotal <
              l.copiasTotal - l.copiasDisponibles
          · rw [if_pos h2]
            constructor
            · intro h
              cases h
            · rintro ⟨u', l', hu', hx1, hl', hx2, hx3, hs⟩
              subst hu'
              subst hl'
              exact absurd h2 hx3
          · rw [if_neg h2]
            simp only [Except.ok.injEq]
            constructor
            · intro h
              exact ⟨u, l, rfl, hrol, rfl, h1, h2, h.symm⟩
            · rintro ⟨u', l', hu', hx1, hl', hx2, hx3, hs⟩
              subst hu'
              subst hl'
              exact hs.symm
    · rw [if_pos hrol]
      simp [hrol]

theorem gestionarMulta_ok_iff {s : LibState} {a t : Nat} {accion : AccionMulta}
    {monto : Rat} {s' : LibState} :
    gestionarMulta s a t accion monto = .ok s' ↔
      ∃ u w, findUsuarioActivo s a = some u ∧
        (u.rol = .bibliotecario ∨ u.rol = .admin) ∧ findUsuario s t = some w ∧
        ¬monto < 0 ∧
        s' = { s with usuarios := updFirst (fun x => x.id == t) (aplicarMulta accion monto) s.usuarios } := by
  unfold gestionarMulta
  cases hu : findUsuarioActivo s a with
  | none => simp
  | some u =>
    simp only [Option.some.injEq]
    by_cases hrol : u.rol = .bibliotecario ∨ u.rol = .admin
    · rw [if_neg (not_not_intro hrol)]
      cases hw : findUsuario s t with
      | none => simp [hrol]
      | some w =>
        simp only [Option.some.injEq]
        by_cases hneg : monto < 0
        · rw [if_pos hneg]
          constructor
          · intro h
            cases h
          · rintro ⟨u', w', hu', hx1, hw', hx2, hs⟩
            exact absurd hneg hx2
        · rw [if_neg hneg]
          simp only [Except.ok.injEq]
          constructor
          · intro h
            exact ⟨u, w, rfl, hrol, rfl, hneg, h.symm⟩
          · rintro ⟨u', w', hu', hx1, hw', hx2, hs⟩
            subst hu'
            exact hs.symm
    · rw [if_pos hrol]
      simp [hrol]

/-! ### The copy-count invariant (claim C1) -/

/-- Number of `activo` loans of one book, as the `Prestamo` table records
them. -/
def activeLoanCount (ps : List Prestamo) (bid : Nat) : Nat :=
  ps.countP (fun q => q.libro == bid && q.estado == EstadoPrestamo.activo)

/-- The inductive invariant of the loan engine: primary keys of the book
table are unique, every book has a non-negative available count, and the
available count plus the book's active loans never exceeds the total
count. -/
def LoanInv (s : LibState) : Prop :=
  (s.libros.map Libro.id).Nodup ∧
  ∀ l ∈ s.libros, 0 ≤ l.copiasDisponibles ∧
    l.copiasDisponibles + (activeLoanCount s.prestamos l.id : Int) ≤ l.copiasTotal

instance (s : LibState) : Decidable (LoanInv s) := by
  unfold LoanInv
  exact instDecidableAnd

/-- Which operations are catalog updates (`actualizar_libro`). -/
def Op.isCatalogUpdate : Op → Bool
  | .actualizarLibro _ _ _ => true
  | _ => false

theorem key_ne_of_nodup_mid {g : α → Nat} {l₁ l₂ : List α} {a : α}
    (hnd : ((l₁ ++ a :: l₂).map g).Nodup) :
    ∀ b, b ∈ l₁ ∨ b ∈ l₂ → g b ≠ g a := by
  rw [List.map_append, List.map_cons] at hnd
  obtain ⟨hn1, hn2, hdisj⟩ := List.nodup_append.1 hnd
  intro b hb he
  rcases hb with hb | hb
  · exact hdisj (he ▸ List.mem_map_of_mem g hb) (List.mem_cons_self _ _)
  · exact (List.nodup_cons.1 hn2).1 (he ▸ List.mem_map_of_mem g hb)

theorem activeLoanCount_append_one (ps : List Prestamo) (q : Prestamo)
    (bid : Nat) :
    activeLoanCount (ps ++ [q]) bid = activeLoanCount ps bid +
      (if (q.libro == bid && q.estado == EstadoPrestamo.activo) = true
        then 1 else 0) := by
  simp [activeLoanCount, List.countP_append, List.countP_cons]

theorem activeLoanCount_mid (m₁ m₂ : List Prestamo) (p p' : Prestamo)
    (bid : Nat) :
    activeLoanCount (m₁ ++ p' :: m₂) bid =
      activeLoanCount (m₁ ++ p :: m₂) bid +
      (if (p'.libro == bid && p'.estado == EstadoPrestamo.activo) = true
        then 1 else 0) -
      (if (p.libro == bid && p.estado == EstadoPrestamo.activo) = true
        then 1 else 0) := by
  simp only [activeLoanCount, List.countP_append, List.countP_cons]
  omega

theorem activeLoanCount_decomp (m₁ m₂ : List Prestamo) (p : Prestamo)
    (bid : Nat) :
    activeLoanCount (m₁ ++ p :: m₂) bid =
      activeLoanCount m₁ bid + activeLoanCount m₂ bid +
      (if (p.libro == bid && p.estado == EstadoPrestamo.activo) = true
        then 1 else 0) := by
  simp only [activeLoanCount, List.countP_append, List.countP_cons]
  omega

theorem exec_eq_of_step_ok {s : LibState} {op : Op} {s' : LibState}
    (h : step s op = .ok s') : exec s op = s' := by
  unfold exec
  rw [h]

theorem exec_eq_of_step_error {s : LibState} {op : Op} {e : ApiError}
    (h : step s op = .error e) : exec s op = s := by
  unfold exec
  rw [h]

theorem activeLoanCount_devolver (nn : Int) {pid : Nat} {p : Prestamo}
    {ps : List Prestamo}
    (hfind : ps.find? (fun q => q.id == pid) = some p)
    (hact : p.estado = EstadoPrestamo.activo) (bid : Nat) :
    activeLoanCount (updFirst (fun q => q.id == pid)
      (fun q => { q with fechaDevolucionReal := some nn,
                         diasRetraso := overdueDays p.fechaDevolucionEsperada nn,
                         multaGenerada := overdueFine p.fechaDevolucionEsperada nn,
                         estado := EstadoPrestamo.devuelto }) ps) bid +
      (if (p.libro == bid) = true then 1 else 0) = activeLoanCount ps bid := by
  obtain ⟨m₁, m₂, hdec, hpre, hupd⟩ := updFirst_decomp
    (fun q => { q with fechaDevolucionReal := some nn,
                       diasRetraso := overdueDays p.fechaDevolucionEsperada nn,
                       multaGenerada := overdueFine p.fechaDevolucionEsperada nn,
                       estado := EstadoPrestamo.devuelto }) hfind
  subst hdec
  rw [hupd, activeLoanCount_decomp, activeLoanCount_decomp]
  cases hpb : (p.libro == bid) <;> simp [hact, hpb]

theorem activeLoanCount_renovar {ff : Int} {p0 : Prestamo → Bool}
    {ps : List Prestamo} {bid : Nat} :
    activeLoanCount (updFirst p0
      (fun q => { q with fechaDevolucionEsperada := ff,
                         renovaciones := q.renovaciones + 1 }) ps) bid =
      activeLoanCount ps bid := by
  unfold activeLoanCount
  apply countP_updFirst_eq
  intro x
  rfl

/-- Every operation except a catalog update preserves the loan-engine
invariant (rejected requests trivially so). -/
theorem loanInv_exec (s : LibState) (op : Op) (hop : op.isCatalogUpdate = false)
    (hinv : LoanInv s) : LoanInv (exec s op) := by
  cases hstep : step s op with
  | error e =>
    rw [exec_eq_of_step_error hstep]
    exact hinv
  | ok s' =>
    rw [exec_eq_of_step_ok hstep]
    obtain ⟨hnd, hbound⟩ := hinv
    cases op with
    | crearPrestamo a lid f n =>
      simp only [step] at hstep
      rw [crearPrestamo_ok_iff] at hstep
      obtain ⟨u, l, hu, hm, hl, hc, he, hf, rfl⟩ := hstep
      have hfind : s.libros.find? (fun b => b.id == lid) = some l := hl
      obtain ⟨k₁, k₂, hkdec, hkpre, hkupd⟩ :=
        updFirst_decomp
          (fun b => libroSave { b with copiasDisponibles := b.copiasDisponibles - 1 })
          hfind
      constructor
      · have hidf : ∀ x : Libro,
            (libroSave { x with copiasDisponibles := x.copiasDisponibles - 1 }).id = x.id :=
          fun x => libroSave_id _
        show ((updFirst _ _ s.libros).map Libro.id).Nodup
        rw [map_updFirst hidf]
        exact hnd
      · intro b hb
        rw [hkupd] at hb
        have hlid : (l.id == lid) = true := by
          have h0 := List.find?_some hfind
          exact h0
        rcases List.mem_append.1 hb with hb | hb
        · have hbold : b ∈ s.libros := by
            rw [hkdec]
            exact List.mem_append_left _ hb
          have hbne : b.id ≠ l.id :=
            key_ne_of_nodup_mid (hkdec ▸ hnd) b (Or.inl hb)
          obtain ⟨h1, h2⟩ := hbound b hbold
          refine ⟨h1, ?_⟩
          show b.copiasDisponibles +
            (activeLoanCount (s.prestamos ++ [_]) b.id : Int) ≤ b.copiasTotal
          rw [activeLoanCount_append_one]
          have hcond : ((l.id == b.id) &&
              (EstadoPrestamo.activo == EstadoPrestamo.activo)) = false := by
            simp
            exact fun hx => absurd hx.symm hbne
          simp only [hcond, Bool.false_eq_true, if_false, Nat.add_zero]
          exact h2
        · rcases List.mem_cons.1 hb with hb | hb
          · subst hb
            have hlmem : l ∈ s.libros := by
              rw [hkdec]
              exact List.mem_append_right _ (List.mem_cons_self _ _)
            obtain ⟨h1, h2⟩ := hbound l hlmem
            have hid : (libroSave { l with
                copiasDisponibles := l.copiasDisponibles - 1 }).id = l.id := by
              rw [libroSave_id]
            have hcop : (libroSave { l with
                copiasDisponibles := l.copiasDisponibles - 1 }).copiasDisponibles =
                l.copiasDisponibles - 1 := by
              rw [libroSave_copias]
            have htot : (libroSave { l with
                copiasDisponibles := l.copiasDisponibles - 1 }).copiasTotal =
                l.copiasTotal := by
              rw [libroSave_total]
            rw [hid, hcop, htot]
            refine ⟨by omega, ?_⟩
            show l.copiasDisponibles - 1 +
              (activeLoanCount (s.prestamos ++ [_]) l.id : Int) ≤ l.copiasTotal
            rw [activeLoanCount_append_one]
            have hcond : ((l.id == l.id) &&
                (EstadoPrestamo.activo == EstadoPrestamo.activo)) = true := by
              simp
            simp only [hcond, if_true]
            push_cast
            omega
          · have hbold : b ∈ s.libros := by
              rw [hkdec]
              exact List.mem_append_right _ (List.mem_cons_of_mem _ hb)
            have hbne : b.id ≠ l.id :=
              key_ne_of_nodup_mid (hkdec ▸ hnd) b (Or.inr hb)
            obtain ⟨h1, h2⟩ := hbound b hbold
            refine ⟨h1, ?_⟩
            show b.copiasDisponibles +
              (activeLoanCount (s.prestamos ++ [_]) b.id : Int) ≤ b.copiasTotal
            rw [activeLoanCount_append_one]
            have hcond : ((l.id == b.id) &&
                (EstadoPrestamo.activo == EstadoPrestamo.activo)) = false := by
              simp
              exact fun hx => absurd hx.symm hbne
            simp only [hcond, Bool.false_eq_true, if_false, Nat.add_zero]
            exact h2
    | devolverLibro a pid n =>
      simp only [step] at hstep
      rw [devolverLibro_ok_iff] at hstep
      obtain ⟨u, p, hu, hp, hown, hact, rfl⟩ := hstep
      have hpfind : s.prestamos.find? (fun q => q.id == pid) = some p := hp
      constructor
      · have hidg : ∀ x : Libro,
            (libroSave { x with copiasDisponibles := x.copiasDisponibles + 1 }).id = x.id :=
          fun x => libroSave_id _
        show ((updFirst _ _ s.libros).map Libro.id).Nodup
        rw [map_updFirst hidg]
        exact hnd
      · intro b hb
        cases hlb : s.libros.find? (fun x => x.id == p.libro) with
        | none =>
          have hnone : ∀ x ∈ s.libros, (x.id == p.libro) = false := by
            intro x hx
            simpa using List.find?_eq_none.1 hlb x hx
          have hb2 : b ∈ updFirst (fun x => x.id == p.libro)
              (fun x => libroSave { x with
                copiasDisponibles := x.copiasDisponibles + 1 }) s.libros := hb
          rw [updFirst_of_forall_not hnone] at hb2
          obtain ⟨h1, h2⟩ := hbound b hb2
          refine ⟨h1, ?_⟩
          have hpb : (p.libro == b.id) = false := by
            rw [beq_eq_false_iff_ne]
            have hbn : b.id ≠ p.libro := by
              have := hnone b hb2
              rwa [beq_eq_false_iff_ne] at this
            exact fun hx => hbn hx.symm
          have hc2 := activeLoanCount_devolver n hpfind hact b.id
          rw [hpb] at hc2
          simp only [Bool.false_eq_true, if_false, Nat.add_zero] at hc2
          show b.copiasDisponibles +
            (activeLoanCount (updFirst _ _ s.prestamos) b.id : Int) ≤ b.copiasTotal
          rw [hc2]
          exact h2
        | some lb =>
          obtain ⟨k₁, k₂, hkdec, hkpre, hkupd⟩ := updFirst_decomp
            (fun x => libroSave { x with copiasDisponibles := x.copiasDisponibles + 1 })
            hlb
          have hlbid : lb.id = p.libro := by
            have h0 := List.find?_some hlb
            simpa using h0
          have hmemupd : b ∈ updFirst (fun x => x.id == p.libro)
              (fun x => libroSave { x with
                copiasDisponibles := x.copiasDisponibles + 1 }) s.libros := hb
          rw [hkupd] at hmemupd
          have hc2 := activeLoanCount_devolver n hpfind hact b.id
          rcases List.mem_append.1 hmemupd with hbm | hbm
          · have hbold : b ∈ s.libros := by
              rw [hkdec]
              exact List.mem_append_left _ hbm
            have hbne : b.id ≠ lb.id := key_ne_of_nodup_mid (hkdec ▸ hnd) b (Or.inl hbm)
            obtain ⟨h1, h2⟩ := hbound b hbold
            refine ⟨h1, ?_⟩
            have hpb : (p.libro == b.id) = false := by
              rw [beq_eq_false_iff_ne]
              exact fun hx => hbne (by rw [← hx, hlbid])
            rw [hpb] at hc2
            simp only [Bool.false_eq_true, if_false, Nat.add_zero] at hc2
            show b.copiasDisponibles +
              (activeLoanCount (updFirst _ _ s.prestamos) b.id : Int) ≤ b.copiasTotal
            rw [hc2]
            exact h2
          · rcases List.mem_cons.1 hbm with hbm | hbm
            · subst hbm
              have hlmem : lb ∈ s.libros := by
                rw [hkdec]
                exact List.mem_append_right _ (List.mem_cons_self _ _)
              obtain ⟨h1, h2⟩ := hbound lb hlmem
              have hid : (libroSave { lb with
                  copiasDisponibles := lb.copiasDisponibles + 1 }).id = lb.id := by
                rw [libroSave_id]
              have hcop : (libroSave { lb with
                  copiasDisponibles := lb.copiasDisponibles + 1 }).copiasDisponibles =
                  lb.copiasDisponibles + 1 := by
                rw [libroSave_copias]
              have htot : (libroSave { lb with
                  copiasDisponibles := lb.copiasDisponibles + 1 }).copiasTotal =
                  lb.copiasTotal := by
                rw [libroSave_total]
              rw [hid, hcop, htot]
              refine ⟨by omega, ?_⟩
              have hc3 := activeLoanCount_devolver n hpfind hact lb.id
              have hpb : (p.libro == lb.id) = true := by
                rw [beq_iff_eq]
                exact hlbid.symm
              rw [hpb] at hc3
              simp only [if_true] at hc3
              show lb.copiasDisponibles + 1 +
                (activeLoanCount (updFirst _ _ s.prestamos) lb.id : Int) ≤ lb.copiasTotal
              omega
            · have hbold : b ∈ s.libros := by
                rw [hkdec]
                exact List.mem_append_right _ (List.mem_cons_of_mem _ hbm)
              have hbne : b.id ≠ lb.id := key_ne_of_nodup_mid (hkdec ▸ hnd) b (Or.inr hbm)
              obtain ⟨h1, h2⟩ := hbound b hbold
              refine ⟨h1, ?_⟩
              have hpb : (p.libro == b.id) = false := by
                rw [beq_eq_false_iff_ne]
                exact fun hx => hbne (by rw [← hx, hlbid])
              rw [hpb] at hc2
              simp only [Bool.false_eq_true, if_false, Nat.add_zero] at hc2
              show b.copiasDisponibles +
                (activeLoanCount (updFirst _ _ s.prestamos) b.id : Int) ≤ b.copiasTotal
              rw [hc2]
              exact h2
    | renovarPrestamo a pid nf n =>
      simp only [step] at hstep
      rw [renovarPrestamo_ok_iff] at hstep
      obtain ⟨u, p, f, hu, hp, hown, hact, hren, hnf, hfn, rfl⟩ := hstep
      refine ⟨hnd, ?_⟩
      intro b hb
      obtain ⟨h1, h2⟩ := hbound b hb
      refine ⟨h1, ?_⟩
      show b.copiasDisponibles + (activeLoanCount (updFirst _ _ s.prestamos) b.id : Int) ≤
        b.copiasTotal
      rw [activeLoanCount_renovar]
      exact h2
    | crearReserva a lid n =>
      simp only [step] at hstep
      rw [crearReserva_ok_iff] at hstep
      obtain ⟨u, l, hu, hm, hactv, hdup, hl, hc, hmant, rfl⟩ := hstep
      exact ⟨hnd, hbound⟩
    | cancelarReserva a rid =>
      simp only [step] at hstep
      rw [cancelarReserva_ok_iff] at hstep
      obtain ⟨u, r, hu, hr, hown, hst, rfl⟩ := hstep
      exact ⟨hnd, hbound⟩
    | notificarDisponibilidad a lp n =>
      simp only [step] at hstep
      rw [notificarDisponibilidad_ok_iff] at hstep
      obtain ⟨u, lid, l, sel, hu, hrol, hlp, hl, hc, hsel, rfl⟩ := hstep
      exact ⟨hnd, hbound⟩
    | actualizarLibro a lid upd =>
      simp [Op.isCatalogUpdate] at hop
    | gestionarMulta a t ac m =>
      simp only [step] at hstep
      rw [gestionarMulta_ok_iff] at hstep
      obtain ⟨u, w, hu, hrol, hw, hneg, rfl⟩ := hstep
      exact ⟨hnd, hbound⟩

theorem loanInv_runOps (s : LibState) (ops : List Op)
    (hops : ∀ op ∈ ops, op.isCatalogUpdate = false) (hinv : LoanInv s) :
    LoanInv (runOps s ops) := by
  induction ops generalizing s with
  | nil => exact hinv
  | cons op rest ih =>
    exact ih (exec s op) (fun o ho => hops o (List.mem_cons_of_mem _ ho))
      (loanInv_exec s op (hops op (List.mem_cons_self _ _)) hinv)

/-! ### Concrete fixtures used by witnesses and counterexamples -/

instance {ε α : Type} [DecidableEq ε] [DecidableEq α] :
    DecidableEq (Except ε α) := fun a b =>
  match a, b with
  | .ok x, .ok y =>
    if h : x = y then isTrue (by rw [h])
    else isFalse (by intro hh; cases hh; exact h rfl)
  | .error x, .error y =>
    if h : x = y then isTrue (by rw [h])
    else isFalse (by intro hh; cases hh; exact h rfl)
  | .ok _, .error _ => isFalse (by intro hh; cases hh)
  | .error _, .ok _ => isFalse (by intro hh; cases hh)

/-- A small store: an active patron (1), a second active patron (2), an
active librarian (10), an inactive patron (3), and one book with a single
copy. -/
def ejemploBase : LibState :=
  { usuarios := [{ id := 1, rol := .usuario, activo := true, multas := 0 },
                 { id := 2, rol := .usuario, activo := true, multas := 0 },
                 { id := 10, rol := .bibliotecario, activo := true, multas := 0 },
                 { id := 3, rol := .usuario, activo := false, multas := 0 }],
    libros := [{ id := 1, copiasDisponibles := 1, copiasTotal := 1,
                 estado := .disponible }],
    prestamos := [],
    reservas := [],
    nextPrestamoId := 100,
    nextReservaId := 200 }

/-- C1, counterexample.  Starting from a store satisfying
`0 ≤ copiasDisponibles ≤ copiasTotal` (indeed the full loan invariant):
(a) checkout, then a catalog update that raises `copiasDisponibles` back to
the total while the loan is still out, then the return, leave the book with
`copiasDisponibles = 2 > copiasTotal = 1`; (b) a single catalog update can
set `copiasDisponibles = -1 < 0` directly, because
`LibroSerializer.validate` never checks for negative values.  So the claimed
invariant does not hold after every operation of every such sequence. -/
theorem c1_counterexample :
    LoanInv ejemploBase ∧
    ((findLibro (runOps ejemploBase
        [.crearPrestamo 1 1 100 0,
         .actualizarLibro 10 1 { copiasDisponibles := some 1, copiasTotal := none,
                                 estado := none },
         .devolverLibro 1 100 50]) 1).map
          (fun l => (l.copiasDisponibles, l.copiasTotal)) = some (2, 1) ∧
      ¬(2 : Int) ≤ 1) ∧
    ((findLibro (runOps ejemploBase
        [.actualizarLibro 10 1 { copiasDisponibles := some (-1), copiasTotal := none,
                                 estado := none }]) 1).map
          (fun l => (l.copiasDisponibles, l.copiasTotal)) = some (-1, 1) ∧
      ¬(0 : Int) ≤ -1) := by
  refine ⟨by decide, ⟨by decide, by decide⟩, ⟨by decide, by decide⟩⟩

/-- C1 (amended): for every sequence of core loan operations that contains
no catalog update, starting from a state where every book satisfies
`0 ≤ available` and `available + (its active loans) ≤ total` (with unique
book ids), every book satisfies `0 ≤ available ≤ total` after the whole
sequence — checkout decrements `available` only when it is positive and
return increments it while retiring an active loan.  Catalog updates are
excluded: they reject `copiasDisponibles > copiasTotal` but accept negative
`copiasDisponibles` and values exceeding `copiasTotal` minus the book's
outstanding loans, from which a later return overflows the total. -/
theorem c1_theorem (s : LibState) (ops : List Op)
    (hops : ∀ op ∈ ops, op.isCatalogUpdate = false) (hinv : LoanInv s) :
    ∀ l ∈ (runOps s ops).libros,
      0 ≤ l.copiasDisponibles ∧ l.copiasDisponibles ≤ l.copiasTotal := by
  intro l hl
  obtain ⟨hnd, hbound⟩ := loanInv_runOps s ops hops hinv
  obtain ⟨h1, h2⟩ := hbound l hl
  refine ⟨h1, ?_⟩
  have hc : (0 : Int) ≤ (activeLoanCount (runOps s ops).prestamos l.id : Int) := by
    exact_mod_cast Nat.zero_le _
  omega

/-- C1, witness: the amended theorem applied to a one-copy book going
through a full checkout/return cycle. -/
theorem c1_witness :
    (∀ op ∈ ([.crearPrestamo 1 1 100 0, .devolverLibro 1 100 50] : List Op),
      op.isCatalogUpdate = false) ∧
    LoanInv ejemploBase ∧
    ∀ l ∈ (runOps ejemploBase
        [.crearPrestamo 1 1 100 0, .devolverLibro 1 100 50]).libros,
      0 ≤ l.copiasDisponibles ∧ l.copiasDisponibles ≤ l.copiasTotal :=
  ⟨by decide, by decide,
    c1_theorem ejemploBase [.crearPrestamo 1 1 100 0, .devolverLibro 1 100 50]
      (by decide) (by decide)⟩

/-! ### Claim C2: fine computation on return -/

theorem overdueDays_nonneg (esperada actual : Int) :
    0 ≤ overdueDays esperada actual := by
  unfold overdueDays
  split
  · exact_mod_cast Nat.zero_le _
  · exact le_refl 0

theorem overdueFine_nonneg (esperada actual : Int) :
    0 ≤ overdueFine esperada actual := by
  unfold overdueFine
  have h := overdueDays_nonneg esperada actual
  have h2 : (0 : Rat) ≤ (overdueDays esperada actual : Rat) := by exact_mod_cast h
  nlinarith

/-- C2: a successful Return at time `n` records
`overdueDays = 0` and `fine = 0` when `n ≤ expectedReturn`, and otherwise
`overdueDays = floor of the delay in whole days` and
`fine = overdueDays * 10`; the loan is stamped with exactly these values and
the returned-at timestamp, and the owning account's fine balance grows by
exactly the fine (unchanged when the fine is zero). -/
theorem c2_theorem (s : LibState) (a pid : Nat) (n : Int) (s' : LibState)
    (p : Prestamo) (h : step s (.devolverLibro a pid n) = .ok s')
    (hp : findPrestamo s pid = some p) :
    findPrestamo s' pid = some { p with
      fechaDevolucionReal := some n,
      diasRetraso := overdueDays p.fechaDevolucionEsperada n,
      multaGenerada := overdueFine p.fechaDevolucionEsperada n,
      estado := .devuelto } ∧
    (n ≤ p.fechaDevolucionEsperada →
      overdueDays p.fechaDevolucionEsperada n = 0 ∧
      overdueFine p.fechaDevolucionEsperada n = 0) ∧
    (p.fechaDevolucionEsperada < n →
      overdueDays p.fechaDevolucionEsperada n =
        ((n - p.fechaDevolucionEsperada).toNat / 86400 : Nat) ∧
      overdueFine p.fechaDevolucionEsperada n =
        (overdueDays p.fechaDevolucionEsperada n : Rat) * 10) ∧
    (∀ w, findUsuario s p.usuario = some w →
      ∃ w', findUsuario s' p.usuario = some w' ∧
        w'.multas = w.multas + overdueFine p.fechaDevolucionEsperada n) := by
  simp only [step] at h
  rw [devolverLibro_ok_iff] at h
  obtain ⟨u, p₀, hu, hp₀, hown, hact, rfl⟩ := h
  rw [hp] at hp₀
  injection hp₀ with hpe
  subst hpe
  refine ⟨?_, ?_, ?_, ?_⟩
  · have hfp : (updFirst (fun q => q.id == pid)
        (fun q => { q with
          fechaDevolucionReal := some n,
          diasRetraso := overdueDays p.fechaDevolucionEsperada n,
          multaGenerada := overdueFine p.fechaDevolucionEsperada n,
          estado := EstadoPrestamo.devuelto }) s.prestamos).find?
          (fun q => q.id == pid) =
        ((s.prestamos.find? (fun q => q.id == pid)).map
          (fun q => { q with
            fechaDevolucionReal := some n,
            diasRetraso := overdueDays p.fechaDevolucionEsperada n,
            multaGenerada := overdueFine p.fechaDevolucionEsperada n,
            estado := EstadoPrestamo.devuelto })) := by
      apply find?_updFirst_eq
      intro x
      rfl
    have hp2 : List.find? (fun q => q.id == pid) s.prestamos = some p := hp
    show (updFirst (fun q => q.id == pid) _ s.prestamos).find?
      (fun q => q.id == pid) = _
    rw [hfp, hp2]
    rfl
  · intro hle
    have h0 : overdueDays p.fechaDevolucionEsperada n = 0 := by
      unfold overdueDays
      rw [if_neg (by omega)]
    refine ⟨h0, ?_⟩
    unfold overdueFine
    rw [h0]
    norm_num
  · intro hlt
    refine ⟨?_, rfl⟩
    unfold overdueDays
    rw [if_pos hlt]
  · intro w hw
    by_cases hfin : 0 < overdueFine p.fechaDevolucionEsperada n
    · have hfw : (updFirst (fun x => x.id == p.usuario)
          (fun x => { x with
            multas := x.multas + overdueFine p.fechaDevolucionEsperada n })
          s.usuarios).find? (fun x => x.id == p.usuario) =
          ((s.usuarios.find? (fun x => x.id == p.usuario)).map
            (fun x => { x with
              multas := x.multas + overdueFine p.fechaDevolucionEsperada n })) := by
        apply find?_updFirst_eq
        intro x
        rfl
      refine ⟨{ w with
        multas := w.multas + overdueFine p.fechaDevolucionEsperada n }, ?_, rfl⟩
      have hw2 : List.find? (fun x => x.id == p.usuario) s.usuarios = some w := hw
      show ((if 0 < overdueFine p.fechaDevolucionEsperada n then
          updFirst (fun x => x.id == p.usuario) _ s.usuarios
        else s.usuarios).find? (fun x => x.id == p.usuario)) = _
      rw [if_pos hfin, hfw, hw2]
      rfl
    · have hz : overdueFine p.fechaDevolucionEsperada n = 0 := by
        have := overdueFine_nonneg p.fechaDevolucionEsperada n
        linarith
      refine ⟨w, ?_, by rw [hz, add_zero]⟩
      show ((if 0 < overdueFine p.fechaDevolucionEsperada n then
          updFirst (fun x => x.id == p.usuario) _ s.usuarios
        else s.usuarios).find? (fun x => x.id == p.usuario)) = _
      rw [if_neg hfin]
      exact hw

/-- Fixture for C2: the loan of patron 1 on book 1, expected back at time 0. -/
def c2Prestamo : Prestamo :=
  { id := 100, usuario := 1, libro := 1, fechaPrestamo := -432000,
    fechaDevolucionEsperada := 0, fechaDevolucionReal := none,
    diasRetraso := 0, multaGenerada := 0, estado := .activo, renovaciones := 0 }

/-- Fixture for C2: patron 1 with a clean account. -/
def c2Usuario : Usuario := { id := 1, rol := .usuario, activo := true, multas := 0 }

/-- Fixture for C2: patron 1 holds loan 100 on book 1 whose expected return
was at time 0. -/
def c2State : LibState :=
  { usuarios := [c2Usuario],
    libros := [{ id := 1, copiasDisponibles := 0, copiasTotal := 1,
                 estado := .agotado }],
    prestamos := [c2Prestamo],
    reservas := [],
    nextPrestamoId := 101,
    nextReservaId := 200 }

/-- C2, witness: returning exactly 5 days (432000 s) late yields 5 overdue
days, a 50.00 fine, and the account balance rises from 0 to 0 + 50. -/
theorem c2_witness :
    overdueDays 0 432000 = 5 ∧ overdueFine 0 432000 = 50 ∧
    (findPrestamo (exec c2State (.devolverLibro 1 100 432000)) 100).map
      (fun q => (q.diasRetraso, q.multaGenerada)) = some (5, 50) ∧
    ∃ w', findUsuario (exec c2State (.devolverLibro 1 100 432000)) 1 = some w' ∧
      w'.multas = 0 + overdueFine 0 432000 := by
  have h5 : overdueDays 0 432000 = 5 := by decide
  have h50 : overdueFine 0 432000 = 50 := by norm_num [overdueFine, overdueDays]
  have hstep : ∃ t, devolverLibro c2State 1 100 432000 = .ok t :=
    ⟨_, devolverLibro_ok_iff.2
      ⟨c2Usuario, c2Prestamo, by decide, by decide, by decide, by decide, rfl⟩⟩
  obtain ⟨t, ht⟩ := hstep
  have ht2 : step c2State (.devolverLibro 1 100 432000) = .ok t := ht
  have hexec : exec c2State (.devolverLibro 1 100 432000) = t :=
    exec_eq_of_step_ok ht2
  have ht3 : step c2State (.devolverLibro 1 100 432000) =
      .ok (exec c2State (.devolverLibro 1 100 432000)) := by
    rw [hexec]
    exact ht2
  have h := c2_theorem c2State 1 100 432000
    (exec c2State (.devolverLibro 1 100 432000)) c2Prestamo ht3 (by decide)
  refine ⟨h5, h50, ?_, ?_⟩
  · rw [h.1]
    show some (overdueDays 0 432000, overdueFine 0 432000) = some (5, 50)
    rw [h5, h50]
  · exact h.2.2.2 c2Usuario (by decide)

/-! ### Claim C6: a second Return is rejected and changes nothing -/

/-- Return on a loan that is no longer `activo` always errors, and errors
with `prestamoYaDevuelto` for any caller that authenticates and passes the
ownership check. -/
theorem devolverLibro_error_of_terminado (t : LibState) (b pid : Nat)
    (n₂ : Int) (p₁ : Prestamo) (hp₁ : findPrestamo t pid = some p₁)
    (hnact : p₁.estado ≠ .activo) :
    (∃ e, devolverLibro t b pid n₂ = .error e) ∧
    (∀ u₂, findUsuarioActivo t b = some u₂ →
      ¬(u₂.rol = .usuario ∧ p₁.usuario ≠ u₂.id) →
      devolverLibro t b pid n₂ = .error .prestamoYaDevuelto) := by
  unfold devolverLibro
  cases hu₂ : findUsuarioActivo t b with
  | none =>
    refine ⟨⟨.tokenInvalido, rfl⟩, ?_⟩
    intro u₂ h
    cases h
  | some u₂ =>
    simp only [hp₁]
    by_cases hown₂ : u₂.rol = .usuario ∧ p₁.usuario ≠ u₂.id
    · rw [if_pos hown₂]
      refine ⟨⟨.soloPropiosPrestamos, rfl⟩, ?_⟩
      intro u₃ hu₃ hnown
      injection hu₃ with hu₃
      subst hu₃
      exact absurd hown₂ hnown
    · rw [if_neg hown₂, if_pos hnact]
      refine ⟨⟨.prestamoYaDevuelto, rfl⟩, ?_⟩
      intro u₃ hu₃ hnown
      rfl

/-- C6: after a successful Return of loan `pid`, the loan is recorded
`devuelto`; any second Return call on the same loan fails (with
`AlreadyCompleted` — `prestamoYaDevuelto` — whenever the caller
authenticates and owns the loan or is staff) and the state after the
rejected second call is identical to the state before it: book counters,
loan fields and account balances are all unchanged. -/
theorem c6_theorem (s : LibState) (a pid : Nat) (n : Int) (s₁ : LibState)
    (h : step s (.devolverLibro a pid n) = .ok s₁) (a₂ : Nat) (n₂ : Int) :
    ∃ p₁, findPrestamo s₁ pid = some p₁ ∧ p₁.estado = .devuelto ∧
      (∃ e, step s₁ (.devolverLibro a₂ pid n₂) = .error e) ∧
      exec s₁ (.devolverLibro a₂ pid n₂) = s₁ ∧
      ∀ u₂, findUsuarioActivo s₁ a₂ = some u₂ →
        ¬(u₂.rol = .usuario ∧ p₁.usuario ≠ u₂.id) →
        step s₁ (.devolverLibro a₂ pid n₂) = .error .prestamoYaDevuelto := by
  simp only [step] at h
  rw [devolverLibro_ok_iff] at h
  obtain ⟨u, p, hu, hp, hown, hact, hs⟩ := h
  have hp2 : List.find? (fun q => q.id == pid) s.prestamos = some p := hp
  have hfp0 : findPrestamo s₁ pid = some { p with
      fechaDevolucionReal := some n,
      diasRetraso := overdueDays p.fechaDevolucionEsperada n,
      multaGenerada := overdueFine p.fechaDevolucionEsperada n,
      estado := EstadoPrestamo.devuelto } := by
    rw [hs]
    have hfp : (updFirst (fun q => q.id == pid)
        (fun q => { q with
          fechaDevolucionReal := some n,
          diasRetraso := overdueDays p.fechaDevolucionEsperada n,
          multaGenerada := overdueFine p.fechaDevolucionEsperada n,
          estado := EstadoPrestamo.devuelto }) s.prestamos).find?
          (fun q => q.id == pid) =
        ((s.prestamos.find? (fun q => q.id == pid)).map
          (fun q => { q with
            fechaDevolucionReal := some n,
            diasRetraso := overdueDays p.fechaDevolucionEsperada n,
            multaGenerada := overdueFine p.fechaDevolucionEsperada n,
            estado := EstadoPrestamo.devuelto })) := by
      apply find?_updFirst_eq
      intro x
      rfl
    show (updFirst (fun q => q.id == pid) _ s.prestamos).find?
      (fun q => q.id == pid) = _
    rw [hfp, hp2, Option.map_some']
  have hne : ({ p with
      fechaDevolucionReal := some n,
      diasRetraso := overdueDays p.fechaDevolucionEsperada n,
      multaGenerada := overdueFine p.fechaDevolucionEsperada n,
      estado := EstadoPrestamo.devuelto } : Prestamo).estado ≠
      EstadoPrestamo.activo := by
    intro hx
    cases hx
  have hterm := devolverLibro_error_of_terminado s₁ a₂ pid n₂ _ hfp0 hne
  obtain ⟨⟨e, he⟩, hrest⟩ := hterm
  have he2 : step s₁ (.devolverLibro a₂ pid n₂) = .error e := he
  exact ⟨_, hfp0, rfl, ⟨e, he2⟩, exec_eq_of_step_error he2, hrest⟩

/-- C6, witness: returning loan 100 on time and then calling Return again
(at a later time) hits the theorem's conclusions at a concrete store. -/
theorem c6_witness :
    ∃ p₁, findPrestamo (exec c2State (.devolverLibro 1 100 0)) 100 = some p₁ ∧
      p₁.estado = .devuelto ∧
      (∃ e, step (exec c2State (.devolverLibro 1 100 0))
        (.devolverLibro 1 100 7) = .error e) ∧
      exec (exec c2State (.devolverLibro 1 100 0)) (.devolverLibro 1 100 7) =
        exec c2State (.devolverLibro 1 100 0) ∧
      ∀ u₂, findUsuarioActivo (exec c2State (.devolverLibro 1 100 0)) 1 =
          some u₂ →
        ¬(u₂.rol = .usuario ∧ p₁.usuario ≠ u₂.id) →
        step (exec c2State (.devolverLibro 1 100 0)) (.devolverLibro 1 100 7) =
          .error .prestamoYaDevuelto := by
  have hstep : ∃ t, devolverLibro c2State 1 100 0 = .ok t :=
    ⟨_, devolverLibro_ok_iff.2
      ⟨c2Usuario, c2Prestamo, by decide, by decide, by decide, by decide, rfl⟩⟩
  obtain ⟨t, ht⟩ := hstep
  have ht2 : step c2State (.devolverLibro 1 100 0) = .ok t := ht
  have ht3 : step c2State (.devolverLibro 1 100 0) =
      .ok (exec c2State (.devolverLibro 1 100 0)) := by
    rw [exec_eq_of_step_ok ht2]
    exact ht2
  exact c6_theorem c2State 1 100 0 _ ht3 1 7

/-! ### Claim C8: renewal count bounds -/

theorem find?_map_updFirst {p q : α → Bool} {f : α → α} {g : α → β}
    (hq : ∀ x, q (f x) = q x) (hg : ∀ x, g (f x) = g x) :
    ∀ {l : List α}, ((updFirst p f l).find? q).map g = (l.find? q).map g
  | [] => rfl
  | a :: as => by
    by_cases ha : p a
    · by_cases hqa : q a
      · have h1 : q (f a) = true := by rw [hq]; exact hqa
        simp [updFirst, ha, List.find?_cons, hqa, h1, hg a]
      · have h1 : q (f a) = false := by rw [hq]; simpa using hqa
        simp [updFirst, ha, List.find?_cons, hqa, h1]
    · by_cases hqa : q a
      · simp [updFirst, ha, List.find?_cons, hqa]
      · simp only [updFirst, ha, Bool.false_eq_true, if_false, List.find?_cons,
          hqa, if_false]
        rw [find?_map_updFirst hq hg]

theorem find?_renov_devolver (nn : Int) (p : Prestamo) (k : Nat)
    {p0 : Prestamo → Bool} {ps : List Prestamo} :
    ((updFirst p0
      (fun q => { q with fechaDevolucionReal := some nn,
                         diasRetraso := overdueDays p.fechaDevolucionEsperada nn,
                         multaGenerada := overdueFine p.fechaDevolucionEsperada nn,
                         estado := EstadoPrestamo.devuelto }) ps).find?
        (fun x => x.id == k)).map Prestamo.renovaciones =
      (ps.find? (fun x => x.id == k)).map Prestamo.renovaciones := by
  apply find?_map_updFirst
  · intro x
    rfl
  · intro x
    rfl

/-- C8 (amended): the renewal counter of every loan never decreases under
any operation and stays at most 2 when it started at most 2; a Renew of a
loan whose counter is already 2 fails with `LimitExceeded`
(`limiteRenovaciones`) and leaves the store unchanged; a successful Renew
increments the counter by exactly 1 and sets the expected-return date to
the caller-supplied timestamp, which must be strictly in the future but may
be earlier than the previous expected-return date (the code does not force
an extension). -/
theorem c8_theorem :
    (∀ (s : LibState) (op : Op) (pid : Nat) (r : Int),
      (findPrestamo s pid).map Prestamo.renovaciones = some r →
      ∃ r', (findPrestamo (exec s op) pid).map Prestamo.renovaciones = some r' ∧
        r ≤ r') ∧
    (∀ (s : LibState) (op : Op),
      (∀ q ∈ s.prestamos, q.renovaciones ≤ 2) →
      ∀ q ∈ (exec s op).prestamos, q.renovaciones ≤ 2) ∧
    (∀ (s : LibState) (a pid : Nat) (f : Option Int) (n : Int) (u : Usuario)
      (p : Prestamo), findUsuarioActivo s a = some u →
      findPrestamo s pid = some p →
      ¬(u.rol = .usuario ∧ p.usuario ≠ u.id) → p.estado = .activo →
      2 ≤ p.renovaciones →
      step s (.renovarPrestamo a pid f n) = .error .limiteRenovaciones ∧
      exec s (.renovarPrestamo a pid f n) = s) ∧
    (∀ (s : LibState) (a pid : Nat) (f n : Int) (s' : LibState) (p : Prestamo),
      step s (.renovarPrestamo a pid (some f) n) = .ok s' →
      findPrestamo s pid = some p →
      n < f ∧ findPrestamo s' pid = some { p with
        fechaDevolucionEsperada := f, renovaciones := p.renovaciones + 1 }) := by
  refine ⟨?_, ?_, ?_, ?_⟩
  · -- monotonicity
    intro s op pid r hr
    cases hfind : findPrestamo s pid with
    | none =>
      rw [hfind] at hr
      cases hr
    | some q0 =>
      rw [hfind, Option.map_some'] at hr
      injection hr with hr
      subst hr
      have hfind2 : s.prestamos.find? (fun x => x.id == pid) = some q0 := hfind
      cases hstep : step s op with
      | error e =>
        rw [exec_eq_of_step_error hstep, hfind]
        exact ⟨q0.renovaciones, rfl, le_refl _⟩
      | ok s' =>
        rw [exec_eq_of_step_ok hstep]
        cases op with
        | crearPrestamo a lid fd n =>
          simp only [step] at hstep
          rw [crearPrestamo_ok_iff] at hstep
          obtain ⟨u, l, hu, hm, hl, hc, he, hf, rfl⟩ := hstep
          refine ⟨q0.renovaciones, ?_, le_refl _⟩
          show ((s.prestamos ++ _).find? (fun x => x.id == pid)).map
            Prestamo.renovaciones = some q0.renovaciones
          rw [find?_append_left hfind2]
          rfl
        | devolverLibro a pid₀ n =>
          simp only [step] at hstep
          rw [devolverLibro_ok_iff] at hstep
          obtain ⟨u, p, hu, hp, hown, hact, rfl⟩ := hstep
          refine ⟨q0.renovaciones, ?_, le_refl _⟩
          show ((updFirst _ _ s.prestamos).find? (fun x => x.id == pid)).map
            Prestamo.renovaciones = some q0.renovaciones
          rw [find?_renov_devolver n p pid, hfind2]
          rfl
        | renovarPrestamo a pid₀ nf n =>
          simp only [step] at hstep
          rw [renovarPrestamo_ok_iff] at hstep
          obtain ⟨u, p, f, hu, hp, hown, hact, hren, hnf, hfn, rfl⟩ := hstep
          by_cases hpid : pid = pid₀
          · subst hpid
            have hpq : p = q0 := by
              rw [hfind] at hp
              injection hp with hh
              exact hh.symm
            subst hpq
            refine ⟨p.renovaciones + 1, ?_, by omega⟩
            have hfe : (updFirst (fun x => x.id == pid)
                (fun q => { q with fechaDevolucionEsperada := f,
                                   renovaciones := q.renovaciones + 1 })
                s.prestamos).find? (fun x => x.id == pid) =
                ((s.prestamos.find? (fun x => x.id == pid)).map
                  (fun q => { q with fechaDevolucionEsperada := f,
                                     renovaciones := q.renovaciones + 1 })) := by
              apply find?_updFirst_eq
              intro x
              rfl
            show ((updFirst _ _ s.prestamos).find? (fun x => x.id == pid)).map
              Prestamo.renovaciones = some (p.renovaciones + 1)
            rw [hfe, hfind2, Option.map_some', Option.map_some']
          · refine ⟨q0.renovaciones, ?_, le_refl _⟩
            have hfd : (updFirst (fun x => x.id == pid₀)
                (fun q => { q with fechaDevolucionEsperada := f,
                                   renovaciones := q.renovaciones + 1 })
                s.prestamos).find? (fun x => x.id == pid) =
                s.prestamos.find? (fun x => x.id == pid) := by
              apply find?_updFirst_disjoint
              · intro x hx
                have hx2 : x.id = pid₀ := by simpa using hx
                rw [beq_eq_false_iff_ne, hx2]
                exact fun hh => hpid hh.symm
              · intro x
                rfl
            show ((updFirst _ _ s.prestamos).find? (fun x => x.id == pid)).map
              Prestamo.renovaciones = some q0.renovaciones
            rw [hfd, hfind2]
            rfl
        | crearReserva a lid n =>
          simp only [step] at hstep
          rw [crearReserva_ok_iff] at hstep
          obtain ⟨u, l, hu, hm, hactv, hdup, hl, hc, hmant, rfl⟩ := hstep
          refine ⟨q0.renovaciones, ?_, le_refl _⟩
          show (s.prestamos.find? (fun x => x.id == pid)).map
            Prestamo.renovaciones = some q0.renovaciones
          rw [hfind2]
          rfl
        | cancelarReserva a rid =>
          simp only [step] at hstep
          rw [cancelarReserva_ok_iff] at hstep
          obtain ⟨u, rr, hu, hr, hown, hst, rfl⟩ := hstep
          refine ⟨q0.renovaciones, ?_, le_refl _⟩
          show (s.prestamos.find? (fun x => x.id == pid)).map
            Prestamo.renovaciones = some q0.renovaciones
          rw [hfind2]
          rfl
        | notificarDisponibilidad a lp n =>
          simp only [step] at hstep
          rw [notificarDisponibilidad_ok_iff] at hstep
          obtain ⟨u, lid, l, sel, hu, hrol, hlp, hl, hc, hsel, rfl⟩ := hstep
          refine ⟨q0.renovaciones, ?_, le_refl _⟩
          show (s.prestamos.find? (fun x => x.id == pid)).map
            Prestamo.renovaciones = some q0.renovaciones
          rw [hfind2]
          rfl
        | actualizarLibro a lid upd =>
          simp only [step] at hstep
          rw [actualizarLibro_ok_iff] at hstep
          obtain ⟨u, l, hu, hrol, hl, h1, h2, rfl⟩ := hstep
          refine ⟨q0.renovaciones, ?_, le_refl _⟩
          show (s.prestamos.find? (fun x => x.id == pid)).map
            Prestamo.renovaciones = some q0.renovaciones
          rw [hfind2]
          rfl
        | gestionarMulta a t ac m =>
          simp only [step] at hstep
          rw [gestionarMulta_ok_iff] at hstep
          obtain ⟨u, w, hu, hrol, hw, hneg, rfl⟩ := hstep
          refine ⟨q0.renovaciones, ?_, le_refl _⟩
          show (s.prestamos.find? (fun x => x.id == pid)).map
            Prestamo.renovaciones = some q0.renovaciones
          rw [hfind2]
          rfl
  · -- upper bound
    intro s op hb
    cases hstep : step s op with
    | error e =>
      rw [exec_eq_of_step_error hstep]
      exact hb
    | ok s' =>
      rw [exec_eq_of_step_ok hstep]
      cases op with
      | crearPrestamo a lid fd n =>
        simp only [step] at hstep
        rw [crearPrestamo_ok_iff] at hstep
        obtain ⟨u, l, hu, hm, hl, hc, he, hf, rfl⟩ := hstep
        intro q hq
        rcases List.mem_append.1 hq with hq | hq
        · exact hb q hq
        · rcases List.mem_cons.1 hq with hq | hq
          · subst hq
            norm_num
          · cases hq
      | devolverLibro a pid₀ n =>
        simp only [step] at hstep
        rw [devolverLibro_ok_iff] at hstep
        obtain ⟨u, p, hu, hp, hown, hact, rfl⟩ := hstep
        intro q hq
        rcases mem_updFirst hq with hq | ⟨x, hx, hpx, rfl⟩
        · exact hb q hq
        · show x.renovaciones ≤ 2
          exact hb x hx
      | renovarPrestamo a pid₀ nf n =>
        simp only [step] at hstep
        rw [renovarPrestamo_ok_iff] at hstep
        obtain ⟨u, p, f, hu, hp, hown, hact, hren, hnf, hfn, rfl⟩ := hstep
        have hp2 : s.prestamos.find? (fun x => x.id == pid₀) = some p := hp
        obtain ⟨l₁, l₂, hdec, hpre, hupd⟩ := updFirst_decomp
          (fun q => { q with fechaDevolucionEsperada := f,
                             renovaciones := q.renovaciones + 1 }) hp2
        intro q hq
        have hq2 : q ∈ l₁ ++ ({ p with
            fechaDevolucionEsperada := f,
            renovaciones := p.renovaciones + 1 } : Prestamo) :: l₂ := by
          rw [← hupd]
          exact hq
        rcases List.mem_append.1 hq2 with hq3 | hq3
        · exact hb q (by rw [hdec]; exact List.mem_append_left _ hq3)
        · rcases List.mem_cons.1 hq3 with hq3 | hq3
          · subst hq3
            have hpmem : p ∈ s.prestamos := by
              rw [hdec]
              exact List.mem_append_right _ (List.mem_cons_self _ _)
            have := hb p hpmem
            show p.renovaciones + 1 ≤ 2
            omega
          · have hqmem : q ∈ s.prestamos := by
              rw [hdec]
              exact List.mem_append_right _ (List.mem_cons_of_mem _ hq3)
            exact hb q hqmem
      | crearReserva a lid n =>
        simp only [step] at hstep
        rw [crearReserva_ok_iff] at hstep
        obtain ⟨u, l, hu, hm, hactv, hdup, hl, hc, hmant, rfl⟩ := hstep
        exact hb
      | cancelarReserva a rid =>
        simp only [step] at hstep
        rw [cancelarReserva_ok_iff] at hstep
        obtain ⟨u, rr, hu, hr, hown, hst, rfl⟩ := hstep
        exact hb
      | notificarDisponibilidad a lp n =>
        simp only [step] at hstep
        rw [notificarDisponibilidad_ok_iff] at hstep
        obtain ⟨u, lid, l, sel, hu, hrol, hlp, hl, hc, hsel, rfl⟩ := hstep
        exact hb
      | actualizarLibro a lid upd =>
        simp only [step] at hstep
        rw [actualizarLibro_ok_iff] at hstep
        obtain ⟨u, l, hu, hrol, hl, h1, h2, rfl⟩ := hstep
        exact hb
      | gestionarMulta a t ac m =>
        simp only [step] at hstep
        rw [gestionarMulta_ok_iff] at hstep
        obtain ⟨u, w, hu, hrol, hw, hneg, rfl⟩ := hstep
        exact hb
  · -- a third renew fails with LimitExceeded, leaving the store unchanged
    intro s a pid f n u p hu hp hown hact hren
    have hstep : step s (.renovarPrestamo a pid f n) =
        .error .limiteRenovaciones := by
      show renovarPrestamo s a pid f n = .error .limiteRenovaciones
      unfold renovarPrestamo
      simp only [hu, hp]
      rw [if_neg hown, if_neg (not_not_intro hact), if_pos hren]
    exact ⟨hstep, exec_eq_of_step_error hstep⟩
  · -- a successful renew increments by one and stores the supplied date
    intro s a pid f n s' p hstep hp
    simp only [step] at hstep
    rw [renovarPrestamo_ok_iff] at hstep
    obtain ⟨u, p₀, f', hu, hp₀, hown, hact, hren, hnf, hfn, rfl⟩ := hstep
    injection hnf with hnf
    subst hnf
    rw [hp] at hp₀
    injection hp₀ with hp₀
    subst hp₀
    refine ⟨by omega, ?_⟩
    have hfind2 : s.prestamos.find? (fun x => x.id == pid) = some p := hp
    have hfe : (updFirst (fun x => x.id == pid)
        (fun q => { q with fechaDevolucionEsperada := f,
                           renovaciones := q.renovaciones + 1 })
        s.prestamos).find? (fun x => x.id == pid) =
        ((s.prestamos.find? (fun x => x.id == pid)).map
          (fun q => { q with fechaDevolucionEsperada := f,
                             renovaciones := q.renovaciones + 1 })) := by
      apply find?_updFirst_eq
      intro x
      rfl
    show (updFirst _ _ s.prestamos).find? (fun x => x.id == pid) = _
    rw [hfe, hfind2, Option.map_some']

/-- Fixture for C8: an active loan with expected return at time 200 and no
renewals yet. -/
def c8Prestamo : Prestamo :=
  { id := 100, usuario := 1, libro := 1, fechaPrestamo := 0,
    fechaDevolucionEsperada := 200, fechaDevolucionReal := none,
    diasRetraso := 0, multaGenerada := 0, estado := .activo, renovaciones := 0 }

/-- Fixture for C8. -/
def c8State : LibState :=
  { usuarios := [c2Usuario],
    libros := [{ id := 1, copiasDisponibles := 0, copiasTotal := 1,
                 estado := .agotado }],
    prestamos := [c8Prestamo],
    reservas := [],
    nextPrestamoId := 101,
    nextReservaId := 200 }

/-- Fixture for C8: the same loan already renewed twice. -/
def c8State2 : LibState :=
  { c8State with prestamos := [{ c8Prestamo with renovaciones := 2 }] }

/-- C8, counterexample.  A renewal whose caller-supplied date (100) is
strictly in the future (now = 50) but earlier than the current
expected-return date (200) succeeds: the renewal count rises from 0 to 1
and the expected-return date moves backwards from 200 to 100 — the code
checks only `newExpectedReturn > now`, so a successful Renew does not
necessarily extend the expected-return date. -/
theorem c8_counterexample :
    (findPrestamo c8State 100).map
      (fun q => (q.fechaDevolucionEsperada, q.renovaciones)) = some (200, 0) ∧
    (findPrestamo (exec c8State (.renovarPrestamo 1 100 (some 100) 50)) 100).map
      (fun q => (q.fechaDevolucionEsperada, q.renovaciones)) = some (100, 1) ∧
    ¬(200 : Int) ≤ 100 :=
  ⟨by decide, by decide, by decide⟩

/-- C8, witness: the amended theorem's four parts applied to a concrete
loan — a renewal keeps the count monotone and within the bound, a loan
already at 2 renewals is rejected with `limiteRenovaciones` and the store
is untouched, and a successful renewal adds exactly 1 and stores the
supplied date. -/
theorem c8_witness :
    (∃ r', (findPrestamo (exec c8State
        (.renovarPrestamo 1 100 (some 300) 50)) 100).map
        Prestamo.renovaciones = some r' ∧ (0 : Int) ≤ r') ∧
    (∀ q ∈ (exec c8State (.renovarPrestamo 1 100 (some 300) 50)).prestamos,
      q.renovaciones ≤ 2) ∧
    (step c8State2 (.renovarPrestamo 1 100 (some 300) 50) =
        .error .limiteRenovaciones ∧
      exec c8State2 (.renovarPrestamo 1 100 (some 300) 50) = c8State2) ∧
    ((50 : Int) < 300 ∧
      findPrestamo (exec c8State (.renovarPrestamo 1 100 (some 300) 50)) 100 =
        some { c8Prestamo with
          fechaDevolucionEsperada := 300,
          renovaciones := c8Prestamo.renovaciones + 1 }) :=
  by
  have hstep : ∃ t, renovarPrestamo c8State 1 100 (some 300) 50 = .ok t :=
    ⟨_, renovarPrestamo_ok_iff.2
      ⟨c2Usuario, c8Prestamo, 300, by decide, by decide, by decide, by decide,
       by decide, rfl, by decide, rfl⟩⟩
  obtain ⟨t, ht⟩ := hstep
  have ht2 : step c8State (.renovarPrestamo 1 100 (some 300) 50) = .ok t := ht
  have ht3 : step c8State (.renovarPrestamo 1 100 (some 300) 50) =
      .ok (exec c8State (.renovarPrestamo 1 100 (some 300) 50)) := by
    rw [exec_eq_of_step_ok ht2]
    exact ht2
  exact
    ⟨c8_theorem.1 c8State (.renovarPrestamo 1 100 (some 300) 50) 100 0 (by decide),
     c8_theorem.2.1 c8State (.renovarPrestamo 1 100 (some 300) 50) (by decide),
     c8_theorem.2.2.1 c8State2 1 100 (some 300) 50 c2Usuario
       { c8Prestamo with renovaciones := 2 } (by decide) (by decide) (by decide)
       (by decide) (by decide),
     c8_theorem.2.2.2 c8State 1 100 300 50
       (exec c8State (.renovarPrestamo 1 100 (some 300) 50)) c8Prestamo
       ht3 (by decide)⟩

/-! ### Claim C9: fine balances never go negative -/

/-- C9: every operation preserves non-negativity of all account balances
(return-time accrual adds a non-negative fine); the administrative fine
adjustment rejects a negative amount outright; and its `reducir` action
stores exactly `max 0 (balance - amount)`, clamping at zero. -/
theorem c9_theorem :
    (∀ (s : LibState) (op : Op),
      (∀ u ∈ s.usuarios, 0 ≤ u.multas) →
      ∀ u ∈ (exec s op).usuarios, 0 ≤ u.multas) ∧
    (∀ (s : LibState) (a t : Nat) (accion : AccionMulta) (monto : Rat),
      monto < 0 → ∃ e, step s (.gestionarMulta a t accion monto) = .error e) ∧
    (∀ (s : LibState) (a t : Nat) (monto : Rat) (s' : LibState) (w : Usuario),
      step s (.gestionarMulta a t .reducir monto) = .ok s' →
      findUsuario s t = some w →
      findUsuario s' t = some { w with multas := max 0 (w.multas - monto) }) := by
  refine ⟨?_, ?_, ?_⟩
  · intro s op hb
    cases hstep : step s op with
    | error e =>
      rw [exec_eq_of_step_error hstep]
      exact hb
    | ok s' =>
      rw [exec_eq_of_step_ok hstep]
      cases op with
      | crearPrestamo a lid fd n =>
        simp only [step] at hstep
        rw [crearPrestamo_ok_iff] at hstep
        obtain ⟨u, l, hu, hm, hl, hc, he, hf, rfl⟩ := hstep
        exact hb
      | devolverLibro a pid n =>
        simp only [step] at hstep
        rw [devolverLibro_ok_iff] at hstep
        obtain ⟨u, p, hu, hp, hown, hact, rfl⟩ := hstep
        intro w hw
        have hw2 : w ∈ (if 0 < overdueFine p.fechaDevolucionEsperada n then
            updFirst (fun x => x.id == p.usuario)
              (fun x => { x with
                multas := x.multas + overdueFine p.fechaDevolucionEsperada n })
              s.usuarios
          else s.usuarios) := hw
        split at hw2
        · rcases mem_updFirst hw2 with h | ⟨x, hx, hpx, rfl⟩
          · exact hb w h
          · show 0 ≤ x.multas + overdueFine p.fechaDevolucionEsperada n
            have h1 := hb x hx
            have h2 := overdueFine_nonneg p.fechaDevolucionEsperada n
            linarith
        · exact hb w hw2
      | renovarPrestamo a pid nf n =>
        simp only [step] at hstep
        rw [renovarPrestamo_ok_iff] at hstep
        obtain ⟨u, p, f, hu, hp, hown, hact, hren, hnf, hfn, rfl⟩ := hstep
        exact hb
      | crearReserva a lid n =>
        simp only [step] at hstep
        rw [crearReserva_ok_iff] at hstep
        obtain ⟨u, l, hu, hm, hactv, hdup, hl, hc, hmant, rfl⟩ := hstep
        exact hb
      | cancelarReserva a rid =>
        simp only [step] at hstep
        rw [cancelarReserva_ok_iff] at hstep
        obtain ⟨u, rr, hu, hr, hown, hst, rfl⟩ := hstep
        exact hb
      | notificarDisponibilidad a lp n =>
        simp only [step] at hstep
        rw [notificarDisponibilidad_ok_iff] at hstep
        obtain ⟨u, lid, l, sel, hu, hrol, hlp, hl, hc, hsel, rfl⟩ := hstep
        exact hb
      | actualizarLibro a lid upd =>
        simp only [step] at hstep
        rw [actualizarLibro_ok_iff] at hstep
        obtain ⟨u, l, hu, hrol, hl, h1, h2, rfl⟩ := hstep
        exact hb
      | gestionarMulta a t ac monto =>
        simp only [step] at hstep
        rw [gestionarMulta_ok_iff] at hstep
        obtain ⟨u, w0, hu, hrol, hw0, hneg, rfl⟩ := hstep
        intro w hw
        have hw2 : w ∈ updFirst (fun x => x.id == t)
            (aplicarMulta ac monto) s.usuarios := hw
        rcases mem_updFirst hw2 with h | ⟨x, hx, hpx, rfl⟩
        · exact hb w h
        · have h1 := hb x hx
          have hm : ¬monto < 0 := hneg
          cases ac with
          | agregar =>
            show 0 ≤ x.multas + monto
            linarith
          | reducir =>
            show 0 ≤ max 0 (x.multas - monto)
            exact le_max_left 0 _
          | establecer =>
            show (0 : Rat) ≤ monto
            linarith
  · intro s a t accion monto hneg
    show ∃ e, gestionarMulta s a t accion monto = .error e
    unfold gestionarMulta
    cases hu : findUsuarioActivo s a with
    | none => exact ⟨.tokenInvalido, rfl⟩
    | some u =>
      simp only []
      by_cases hrol : u.rol = .bibliotecario ∨ u.rol = .admin
      · rw [if_neg (not_not_intro hrol)]
        cases hw : findUsuario s t with
        | none => exact ⟨.usuarioNoEncontrado, rfl⟩
        | some w =>
          simp only []
          rw [if_pos hneg]
          exact ⟨.montoNegativo, rfl⟩
      · rw [if_pos hrol]
        exact ⟨.noPermisos, rfl⟩
  · intro s a t monto s' w hstep hw
    simp only [step] at hstep
    rw [gestionarMulta_ok_iff] at hstep
    obtain ⟨u, w0, hu, hrol, hw0, hneg, rfl⟩ := hstep
    have hw2 : s.usuarios.find? (fun x => x.id == t) = some w := hw
    have hfe : (updFirst (fun x => x.id == t)
        (aplicarMulta AccionMulta.reducir monto) s.usuarios).find?
          (fun x => x.id == t) =
        ((s.usuarios.find? (fun x => x.id == t)).map
          (aplicarMulta AccionMulta.reducir monto)) := by
      apply find?_updFirst_eq
      intro x
      rfl
    show (updFirst _ _ s.usuarios).find? (fun x => x.id == t) = _
    rw [hfe, hw2, Option.map_some']
    rfl

/-- C9, witness: a concrete fine addition keeps all balances non-negative,
a negative amount is rejected, and `reducir` by more than the balance
clamps the stored balance at `max 0 (0 - 5)`. -/
theorem c9_witness :
    (∀ u ∈ (exec ejemploBase (.gestionarMulta 10 1 .agregar 5)).usuarios,
      0 ≤ u.multas) ∧
    (∃ e, step ejemploBase (.gestionarMulta 10 1 .agregar (-1)) = .error e) ∧
    findUsuario (exec ejemploBase (.gestionarMulta 10 1 .reducir 5)) 1 =
      some { id := 1, rol := .usuario, activo := true,
             multas := max 0 ((0 : Rat) - 5) } := by
  have hstep : ∃ t, gestionarMulta ejemploBase 10 1 .reducir 5 = .ok t :=
    ⟨_, gestionarMulta_ok_iff.2
      ⟨{ id := 10, rol := .bibliotecario, activo := true, multas := 0 },
       { id := 1, rol := .usuario, activo := true, multas := 0 },
       by decide, by decide, by decide, by decide, rfl⟩⟩
  obtain ⟨t, ht⟩ := hstep
  have ht2 : step ejemploBase (.gestionarMulta 10 1 .reducir 5) = .ok t := ht
  have ht3 : step ejemploBase (.gestionarMulta 10 1 .reducir 5) =
      .ok (exec ejemploBase (.gestionarMulta 10 1 .reducir 5)) := by
    rw [exec_eq_of_step_ok ht2]
    exact ht2
  refine ⟨c9_theorem.1 ejemploBase (.gestionarMulta 10 1 .agregar 5) (by decide),
          c9_theorem.2.1 ejemploBase 10 1 .agregar (-1) (by decide), ?_⟩
  exact c9_theorem.2.2 ejemploBase 10 1 5
    (exec ejemploBase (.gestionarMulta 10 1 .reducir 5))
    { id := 1, rol := .usuario, activo := true, multas := 0 } ht3 (by decide)

/-! ### Claim C10: no per-account uniqueness on checkout, unlike reserve -/

/-- Fixture for C10: patron 1 with a clean account, book 1 with two copies,
book 2 exhausted with an existing pending reservation by patron 1. -/
def c10State : LibState :=
  { usuarios := [{ id := 1, rol := .usuario, activo := true, multas := 0 }],
    libros := [{ id := 1, copiasDisponibles := 2, copiasTotal := 2,
                 estado := .disponible },
               { id := 2, copiasDisponibles := 0, copiasTotal := 1,
                 estado := .agotado }],
    prestamos := [],
    reservas := [{ id := 200, usuario := 1, libro := 2, fechaReserva := 0,
                   estado := .pendiente, fechaNotificacion := none,
                   fechaExpiracion := none, prioridad := 1 }],
    nextPrestamoId := 100,
    nextReservaId := 201 }

/-- C10: checkout enforces no per-account uniqueness — the same clean
account checks the same book out twice, each checkout decrementing the
available count by 1 (2 → 1 → 0), ending with two simultaneous active
loans for that account and book; whereas Reserve rejects a duplicate
active reservation for the same account and book
(`reservaActivaExistente`). -/
theorem c10_theorem :
    (runOps c10State [.crearPrestamo 1 1 100 0]).libros.map
      (fun l => l.copiasDisponibles) = [1, 0] ∧
    (runOps c10State [.crearPrestamo 1 1 100 0,
      .crearPrestamo 1 1 100 0]).libros.map
      (fun l => l.copiasDisponibles) = [0, 0] ∧
    (runOps c10State [.crearPrestamo 1 1 100 0,
      .crearPrestamo 1 1 100 0]).prestamos.countP
      (fun p => p.usuario == 1 && p.libro == 1 &&
        p.estado == EstadoPrestamo.activo) = 2 ∧
    step c10State (.crearReserva 1 2 5) = .error .reservaActivaExistente :=
  ⟨by decide, by decide, by decide, by decide⟩

/-! ### Claim C4: checkout preconditions -/

/-- Modelled from the spec: the error taxonomy of §7 maps the
`PreconditionFailed` kind to the business-rule rejections (non-zero fines,
inactive account, no available copies, book not available / in
maintenance).  This classifier marks which embedded error constructors
correspond to that kind; the 401 token rejection of the authentication
decorator is not one of them. -/
def isPreconditionFailedError : ApiError → Bool
  | .multasPendientes => true
  | .usuarioInactivo => true
  | .sinCopiasDisponibles => true
  | .libroNoDisponiblePrestamo => true
  | .libroConCopias => true
  | .libroEnMantenimientoReserva => true
  | _ => false

/-- C4, counterexample.  An inactive actor's checkout is rejected, but by
the authentication lookup (`Usuario.objects.get(id=..., activo=True)`) with
the 401 "invalid token" error, not with a `PreconditionFailed` business
error: the handler's own inactive check is dead code.  The claim's "fails
with PreconditionFailed whenever the actor is inactive" is therefore false
at this input, although no loan is created and no counter changes. -/
theorem c4_counterexample :
    (findUsuario ejemploBase 3).map Usuario.activo = some false ∧
    step ejemploBase (.crearPrestamo 3 1 100 0) = .error .tokenInvalido ∧
    isPreconditionFailedError .tokenInvalido = false ∧
    exec ejemploBase (.crearPrestamo 3 1 100 0) = ejemploBase :=
  ⟨by decide, by decide, by decide, by decide⟩

/-- C4 (amended): a checkout is rejected, with no loan created and no
counter changed, whenever the actor has a non-zero fine balance
(`multasPendientes`), or the book has no available copies
(`sinCopiasDisponibles`), or the book's status is not `disponible`
(`libroNoDisponiblePrestamo`) — all classified `PreconditionFailed` — and
also whenever the actor is inactive, but then with the authentication
error `tokenInvalido` (HTTP 401), which is not a `PreconditionFailed`
business error; when the actor is active with a zero balance, the book has
a positive available count and status `disponible`, and the supplied
expected-return timestamp is strictly in the future, the checkout succeeds,
decrementing the book's available count by 1 and creating the active
loan. -/
theorem c4_theorem :
    (∀ (s : LibState) (a lid : Nat) (f n : Int) (u : Usuario),
      (s.usuarios.map Usuario.id).Nodup → findUsuario s a = some u →
      u.activo = false →
      step s (.crearPrestamo a lid f n) = .error .tokenInvalido ∧
      exec s (.crearPrestamo a lid f n) = s) ∧
    (∀ (s : LibState) (a lid : Nat) (f n : Int) (u : Usuario),
      findUsuarioActivo s a = some u → 0 < u.multas →
      step s (.crearPrestamo a lid f n) = .error .multasPendientes ∧
      exec s (.crearPrestamo a lid f n) = s) ∧
    (∀ (s : LibState) (a lid : Nat) (f n : Int) (u : Usuario) (l : Libro),
      findUsuarioActivo s a = some u → ¬0 < u.multas →
      findLibro s lid = some l → l.copiasDisponibles ≤ 0 →
      step s (.crearPrestamo a lid f n) = .error .sinCopiasDisponibles ∧
      exec s (.crearPrestamo a lid f n) = s) ∧
    (∀ (s : LibState) (a lid : Nat) (f n : Int) (u : Usuario) (l : Libro),
      findUsuarioActivo s a = some u → ¬0 < u.multas →
      findLibro s lid = some l → 0 < l.copiasDisponibles →
      l.estado ≠ .disponible →
      step s (.crearPrestamo a lid f n) = .error .libroNoDisponiblePrestamo ∧
      exec s (.crearPrestamo a lid f n) = s) ∧
    (isPreconditionFailedError .multasPendientes = true ∧
      isPreconditionFailedError .sinCopiasDisponibles = true ∧
      isPreconditionFailedError .libroNoDisponiblePrestamo = true ∧
      isPreconditionFailedError .tokenInvalido = false) ∧
    (∀ (s : LibState) (a lid : Nat) (f n : Int) (u : Usuario) (l : Libro),
      findUsuarioActivo s a = some u → ¬0 < u.multas →
      findLibro s lid = some l → 0 < l.copiasDisponibles →
      l.estado = .disponible → n < f →
      (∀ q ∈ s.prestamos, q.id ≠ s.nextPrestamoId) →
      ∃ s', step s (.crearPrestamo a lid f n) = .ok s' ∧
        findLibro s' lid = some (libroSave { l with
          copiasDisponibles := l.copiasDisponibles - 1 }) ∧
        findPrestamo s' s.nextPrestamoId = some
          { id := s.nextPrestamoId, usuario := u.id, libro := l.id,
            fechaPrestamo := n, fechaDevolucionEsperada := f,
            fechaDevolucionReal := none, diasRetraso := 0,
            multaGenerada := 0, estado := .activo, renovaciones := 0 }) := by
  refine ⟨?_, ?_, ?_, ?_, ⟨rfl, rfl, rfl, rfl⟩, ?_⟩
  · intro s a lid f n u hnd hu hact
    have hu2 : s.usuarios.find? (fun x => x.id == a) = some u := hu
    have hkey : s.usuarios.find? (fun x => x.id == a && x.activo) =
        if u.activo then some u else none :=
      find?_key_and_of_nodup hnd hu2
    rw [hact] at hkey
    simp only [Bool.false_eq_true, if_false] at hkey
    have hnone : findUsuarioActivo s a = none := hkey
    have hstep : step s (.crearPrestamo a lid f n) = .error .tokenInvalido := by
      show crearPrestamo s a lid f n = _
      unfold crearPrestamo
      rw [hnone]
    exact ⟨hstep, exec_eq_of_step_error hstep⟩
  · intro s a lid f n u hu hm
    have hstep : step s (.crearPrestamo a lid f n) = .error .multasPendientes := by
      show crearPrestamo s a lid f n = _
      unfold crearPrestamo
      simp only [hu]
      rw [if_pos hm]
    exact ⟨hstep, exec_eq_of_step_error hstep⟩
  · intro s a lid f n u l hu hm hl hc
    have hstep : step s (.crearPrestamo a lid f n) =
        .error .sinCopiasDisponibles := by
      show crearPrestamo s a lid f n = _
      unfold crearPrestamo
      simp only [hu, hl]
      rw [if_neg hm, if_pos hc]
    exact ⟨hstep, exec_eq_of_step_error hstep⟩
  · intro s a lid f n u l hu hm hl hc hest
    have hstep : step s (.crearPrestamo a lid f n) =
        .error .libroNoDisponiblePrestamo := by
      show crearPrestamo s a lid f n = _
      unfold crearPrestamo
      simp only [hu, hl]
      rw [if_neg hm, if_neg (by omega), if_pos hest]
    exact ⟨hstep, exec_eq_of_step_error hstep⟩
  · intro s a lid f n u l hu hm hl hc hest hfn hfresh
    have hok : crearPrestamo s a lid f n = .ok { s with
        libros := updFirst (fun b => b.id == lid)
          (fun b => libroSave { b with
            copiasDisponibles := b.copiasDisponibles - 1 }) s.libros,
        prestamos := s.prestamos ++
          [{ id := s.nextPrestamoId, usuario := u.id, libro := l.id,
             fechaPrestamo := n, fechaDevolucionEsperada := f,
             fechaDevolucionReal := none, diasRetraso := 0,
             multaGenerada := 0, estado := .activo, renovaciones := 0 }],
        nextPrestamoId := s.nextPrestamoId + 1 } :=
      crearPrestamo_ok_iff.2 ⟨u, l, hu, hm, hl, by omega, hest, by omega, rfl⟩
    refine ⟨_, hok, ?_, ?_⟩
    · have hl2 : s.libros.find? (fun b => b.id == lid) = some l := hl
      have hfe : (updFirst (fun b => b.id == lid)
          (fun b => libroSave { b with
            copiasDisponibles := b.copiasDisponibles - 1 }) s.libros).find?
            (fun b => b.id == lid) =
          ((s.libros.find? (fun b => b.id == lid)).map
            (fun b => libroSave { b with
              copiasDisponibles := b.copiasDisponibles - 1 })) := by
        apply find?_updFirst_eq
        intro x
        rw [libroSave_id]
      show (updFirst _ _ s.libros).find? (fun b => b.id == lid) = _
      rw [hfe, hl2, Option.map_some']
    · have hleft : s.prestamos.find?
          (fun q => q.id == s.nextPrestamoId) = none := by
        rw [List.find?_eq_none]
        intro q hq
        simpa using hfresh q hq
      show (s.prestamos ++ _).find? (fun q => q.id == s.nextPrestamoId) = _
      rw [List.find?_append, hleft]
      simp [List.find?_cons]

/-- Fixture for C4: the base store extended with a fined patron (4), an
exhausted book (2) and a book under maintenance (3). -/
def c4State : LibState :=
  { ejemploBase with
    usuarios := ejemploBase.usuarios ++
      [{ id := 4, rol := .usuario, activo := true, multas := 5 }],
    libros := ejemploBase.libros ++
      [{ id := 2, copiasDisponibles := 0, copiasTotal := 1, estado := .agotado },
       { id := 3, copiasDisponibles := 1, copiasTotal := 1,
         estado := .enMantenimiento }] }

/-- C4, witness: the amended theorem applied to concrete rejected checkouts
(inactive actor 3, fined actor 4, exhausted book 2, maintenance book 3)
and one successful checkout (clean actor 1, available book 1). -/
theorem c4_witness :
    (step c4State (.crearPrestamo 3 1 100 0) = .error .tokenInvalido ∧
      exec c4State (.crearPrestamo 3 1 100 0) = c4State) ∧
    (step c4State (.crearPrestamo 4 1 100 0) = .error .multasPendientes ∧
      exec c4State (.crearPrestamo 4 1 100 0) = c4State) ∧
    (step c4State (.crearPrestamo 1 2 100 0) = .error .sinCopiasDisponibles ∧
      exec c4State (.crearPrestamo 1 2 100 0) = c4State) ∧
    (step c4State (.crearPrestamo 1 3 100 0) =
        .error .libroNoDisponiblePrestamo ∧
      exec c4State (.crearPrestamo 1 3 100 0) = c4State) ∧
    (∃ s', step c4State (.crearPrestamo 1 1 100 0) = .ok s' ∧
      findLibro s' 1 = some (libroSave
        { id := 1, copiasDisponibles := 0, copiasTotal := 1,
          estado := .disponible }) ∧
      findPrestamo s' 100 = some
        { id := 100, usuario := 1, libro := 1, fechaPrestamo := 0,
          fechaDevolucionEsperada := 100, fechaDevolucionReal := none,
          diasRetraso := 0, multaGenerada := 0, estado := .activo,
          renovaciones := 0 }) :=
  ⟨c4_theorem.1 c4State 3 1 100 0
      { id := 3, rol := .usuario, activo := false, multas := 0 }
      (by decide) (by decide) (by decide),
   c4_theorem.2.1 c4State 4 1 100 0
      { id := 4, rol := .usuario, activo := true, multas := 5 }
      (by decide) (by decide),
   c4_theorem.2.2.1 c4State 1 2 100 0
      { id := 1, rol := .usuario, activo := true, multas := 0 }
      { id := 2, copiasDisponibles := 0, copiasTotal := 1, estado := .agotado }
      (by decide) (by decide) (by decide) (by decide),
   c4_theorem.2.2.2.1 c4State 1 3 100 0
      { id := 1, rol := .usuario, activo := true, multas := 0 }
      { id := 3, copiasDisponibles := 1, copiasTotal := 1,
        estado := .enMantenimiento }
      (by decide) (by decide) (by decide) (by decide) (by decide),
   c4_theorem.2.2.2.2.2 c4State 1 1 100 0
      { id := 1, rol := .usuario, activo := true, multas := 0 }
      { id := 1, copiasDisponibles := 1, copiasTotal := 1, estado := .disponible }
      (by decide) (by decide) (by decide) (by decide) (by decide) (by decide)
      (by decide)⟩

/-! ### Claim C5: status derivation of `Libro.save` -/

/-- Fixture for C5: a book under maintenance with zero available copies. -/
def c5State : LibState :=
  { ejemploBase with
    libros := [{ id := 5, copiasDisponibles := 0, copiasTotal := 1,
                 estado := .enMantenimiento }] }

/-- C5, counterexample.  `Libro.save` sets `estado = 'agotado'` whenever
`copiasDisponibles == 0`, even when the status was manually forced to
maintenance: a catalog update that touches no field of a maintenance book
with zero available copies succeeds and silently flips its status to
`agotado` — maintenance is not sticky under mutations that leave
`available = 0`. -/
theorem c5_counterexample :
    (libroSave
      { id := 5, copiasDisponibles := 0, copiasTotal := 1,
        estado := .enMantenimiento }).estado = .agotado ∧
    (findLibro c5State 5).map Libro.estado = some .enMantenimiento ∧
    (findLibro (exec c5State
      (.actualizarLibro 10 5
        { copiasDisponibles := none, copiasTotal := none,
          estado := none })) 5).map Libro.estado = some .agotado ∧
    EstadoLibro.agotado ≠ EstadoLibro.enMantenimiento :=
  ⟨by decide, by decide, by decide, by decide⟩

/-- C5 (amended): after the save hook runs on a book with a non-negative
available count, `estado = 'agotado'` holds exactly when `available = 0` —
with no maintenance exception, because a save with `available = 0` forces
`agotado` even out of maintenance; the status auto-corrects from `agotado`
to `disponible` when the available count is positive; maintenance is sticky
only while the available count stays positive.  Every book a successful
operation writes goes through this save hook. -/
theorem c5_theorem :
    (∀ l : Libro, 0 ≤ l.copiasDisponibles →
      (((libroSave l).estado = .agotado) ↔ l.copiasDisponibles = 0) ∧
      (0 < l.copiasDisponibles → l.estado = .agotado →
        (libroSave l).estado = .disponible) ∧
      (0 < l.copiasDisponibles → l.estado = .enMantenimiento →
        (libroSave l).estado = .enMantenimiento) ∧
      (l.copiasDisponibles = 0 → (libroSave l).estado = .agotado)) ∧
    (∀ (s : LibState) (op : Op) (s' : LibState), step s op = .ok s' →
      ∀ b ∈ s'.libros, b ∈ s.libros ∨ ∃ c, b = libroSave c) := by
  constructor
  · intro l h0
    unfold libroSave
    split_ifs with h1 h2
    · refine ⟨⟨fun _ => h1, fun _ => rfl⟩, ?_, ?_, fun _ => rfl⟩
      · intro hp
        omega
      · intro hp
        omega
    · refine ⟨⟨fun h => absurd h (by intro hh; cases hh), fun h => absurd h h1⟩, ?_, ?_, ?_⟩
      · intro hp hag
        rfl
      · intro hp hm
        rw [h2.2] at hm
        cases hm
      · intro h
        exact absurd h h1
    · refine ⟨⟨fun h => absurd ⟨by omega, h⟩ h2, fun h => absurd h h1⟩, ?_, ?_, ?_⟩
      · intro hp hag
        exact absurd ⟨hp, hag⟩ h2
      · intro hp hm
        exact hm
      · intro h
        exact absurd h h1
  · intro s op s' hstep
    cases op with
    | crearPrestamo a lid fd n =>
      simp only [step] at hstep
      rw [crearPrestamo_ok_iff] at hstep
      obtain ⟨u, l, hu, hm, hl, hc, he, hf, rfl⟩ := hstep
      intro b hb
      have hb2 : b ∈ updFirst (fun x => x.id == lid)
          (fun x => libroSave { x with
            copiasDisponibles := x.copiasDisponibles - 1 }) s.libros := hb
      rcases mem_updFirst hb2 with h | ⟨x, hx, hpx, rfl⟩
      · exact Or.inl h
      · exact Or.inr ⟨_, rfl⟩
    | devolverLibro a pid n =>
      simp only [step] at hstep
      rw [devolverLibro_ok_iff] at hstep
      obtain ⟨u, p, hu, hp, hown, hact, rfl⟩ := hstep
      intro b hb
      have hb2 : b ∈ updFirst (fun x => x.id == p.libro)
          (fun x => libroSave { x with
            copiasDisponibles := x.copiasDisponibles + 1 }) s.libros := hb
      rcases mem_updFirst hb2 with h | ⟨x, hx, hpx, rfl⟩
      · exact Or.inl h
      · exact Or.inr ⟨_, rfl⟩
    | renovarPrestamo a pid nf n =>
      simp only [step] at hstep
      rw [renovarPrestamo_ok_iff] at hstep
      obtain ⟨u, p, f, hu, hp, hown, hact, hren, hnf, hfn, rfl⟩ := hstep
      intro b hb
      exact Or.inl hb
    | crearReserva a lid n =>
      simp only [step] at hstep
      rw [crearReserva_ok_iff] at hstep
      obtain ⟨u, l, hu, hm, hactv, hdup, hl, hc, hmant, rfl⟩ := hstep
      intro b hb
      exact Or.inl hb
    | cancelarReserva a rid =>
      simp only [step] at hstep
      rw [cancelarReserva_ok_iff] at hstep
      obtain ⟨u, rr, hu, hr, hown, hst, rfl⟩ := hstep
      intro b hb
      exact Or.inl hb
    | notificarDisponibilidad a lp n =>
      simp only [step] at hstep
      rw [notificarDisponibilidad_ok_iff] at hstep
      obtain ⟨u, lid, l, sel, hu, hrol, hlp, hl, hc, hsel, rfl⟩ := hstep
      intro b hb
      exact Or.inl hb
    | actualizarLibro a lid upd =>
      simp only [step] at hstep
      rw [actualizarLibro_ok_iff] at hstep
      obtain ⟨u, l, hu, hrol, hl, h1, h2, rfl⟩ := hstep
      intro b hb
      have hb2 : b ∈ updFirst (fun x => x.id == lid)
          (fun x => libroSave { x with
            copiasDisponibles := upd.copiasDisponibles.getD l.copiasDisponibles,
            copiasTotal := upd.copiasTotal.getD l.copiasTotal,
            estado := upd.estado.getD x.estado }) s.libros := hb
      rcases mem_updFirst hb2 with h | ⟨x, hx, hpx, rfl⟩
      · exact Or.inl h
      · exact Or.inr ⟨_, rfl⟩
    | gestionarMulta a t ac m =>
      simp only [step] at hstep
      rw [gestionarMulta_ok_iff] at hstep
      obtain ⟨u, w, hu, hrol, hw, hneg, rfl⟩ := hstep
      intro b hb
      exact Or.inl hb

/-- C5, witness: the amended facts at a concrete exhausted book, a concrete
recovering book, a concrete maintenance book, and a concrete successful
checkout whose written book comes out of the save hook. -/
theorem c5_witness :
    (0 : Int) ≤ 0 ∧
    (((libroSave
      { id := 1, copiasDisponibles := 0, copiasTotal := 1,
        estado := .disponible }).estado = .agotado) ↔ (0 : Int) = 0) ∧
    (libroSave
      { id := 1, copiasDisponibles := 1, copiasTotal := 1,
        estado := .agotado }).estado = .disponible ∧
    (libroSave
      { id := 1, copiasDisponibles := 1, copiasTotal := 1,
        estado := .enMantenimiento }).estado = .enMantenimiento ∧
    ∀ b ∈ (exec ejemploBase (.crearPrestamo 1 1 100 0)).libros,
      b ∈ ejemploBase.libros ∨ ∃ c, b = libroSave c := by
  have h1 := (c5_theorem.1
    { id := 1, copiasDisponibles := 0, copiasTotal := 1,
      estado := .disponible } (by decide)).1
  have h2 := (c5_theorem.1
    { id := 1, copiasDisponibles := 1, copiasTotal := 1,
      estado := .agotado } (by decide)).2.1 (by decide) (by decide)
  have h3 := (c5_theorem.1
    { id := 1, copiasDisponibles := 1, copiasTotal := 1,
      estado := .enMantenimiento } (by decide)).2.2.1 (by decide) (by decide)
  have h4 := c5_theorem.2 ejemploBase (.crearPrestamo 1 1 100 0)
    (exec ejemploBase (.crearPrestamo 1 1 100 0)) (by decide)
  exact ⟨by decide, h1, h2, h3, h4⟩

/-! ### Claim C7: notification selects the head of the queue and nothing else -/

theorem notifLe_refl (r : Reserva) : notifLe r r :=
  Or.inr ⟨rfl, Or.inr ⟨rfl, le_refl _⟩⟩

/-- C7: when NotifyAvailability succeeds, it picks a pending reservation of
the requested book that is `notifLe`-minimal among that book's pending
reservations (lowest priority, ties broken by earliest creation timestamp,
then id), rewrites exactly that reservation to `notificada` with
notification timestamp `now` and expiration `now + 3` days, and changes
nothing else: every other reservation row is untouched (no re-rank) and
the book, loan and account tables are identical. -/
theorem c7_theorem (s : LibState) (a : Nat) (lp : Option Nat) (n : Int)
    (s' : LibState) (hnd : (s.reservas.map Reserva.id).Nodup)
    (h : step s (.notificarDisponibilidad a lp n) = .ok s') :
    ∃ lid sel, lp = some lid ∧ sel ∈ s.reservas ∧ sel.libro = lid ∧
      sel.estado = .pendiente ∧
      (∀ r ∈ s.reservas, r.libro = lid → r.estado = .pendiente →
        notifLe sel r) ∧
      findReserva s' sel.id = some { sel with
        estado := .notificada, fechaNotificacion := some n,
        fechaExpiracion := some (n + 3 * 86400) } ∧
      (∀ r ∈ s.reservas, r.id ≠ sel.id → r ∈ s'.reservas) ∧
      s'.libros = s.libros ∧ s'.prestamos = s.prestamos ∧
      s'.usuarios = s.usuarios := by
  simp only [step] at h
  rw [notificarDisponibilidad_ok_iff] at h
  obtain ⟨u, lid, l, sel, hu, hrol, hlp, hl, hc, hsel, rfl⟩ := h
  have hperm := List.perm_insertionSort notifLe
    (s.reservas.filter (fun q => q.libro == lid && q.estado == EstadoReserva.pendiente))
  have hsorted := List.sorted_insertionSort notifLe
    (s.reservas.filter (fun q => q.libro == lid && q.estado == EstadoReserva.pendiente))
  obtain ⟨t, hcons⟩ : ∃ t, List.insertionSort notifLe
      (s.reservas.filter
        (fun q => q.libro == lid && q.estado == EstadoReserva.pendiente)) =
      sel :: t := by
    cases hv : List.insertionSort notifLe
        (s.reservas.filter
          (fun q => q.libro == lid && q.estado == EstadoReserva.pendiente)) with
    | nil =>
      rw [hv] at hsel
      cases hsel
    | cons x t =>
      rw [hv] at hsel
      injection hsel with hsel
      exact ⟨t, by rw [hsel]⟩
  have hselmemf : sel ∈ s.reservas.filter
      (fun q => q.libro == lid && q.estado == EstadoReserva.pendiente) := by
    rw [← hperm.mem_iff, hcons]
    exact List.mem_cons_self _ _
  have hselmem : sel ∈ s.reservas := (List.mem_filter.1 hselmemf).1
  have hselprop : (sel.libro == lid && sel.estado == EstadoReserva.pendiente)
      = true := (List.mem_filter.1 hselmemf).2
  have hsellibro : sel.libro = lid := by
    have := hselprop
    simp at this
    exact this.1
  have hselpend : sel.estado = .pendiente := by
    have := hselprop
    simp at this
    exact this.2
  refine ⟨lid, sel, hlp, hselmem, hsellibro, hselpend, ?_, ?_, ?_, rfl, rfl, rfl⟩
  · intro r hr hrl hrp
    have hrf : r ∈ s.reservas.filter
        (fun q => q.libro == lid && q.estado == EstadoReserva.pendiente) := by
      rw [List.mem_filter]
      exact ⟨hr, by simp [hrl, hrp]⟩
    rw [← hperm.mem_iff, hcons] at hrf
    rcases List.mem_cons.1 hrf with hrf | hrf
    · rw [hrf]
      exact notifLe_refl _
    · rw [hcons] at hsorted
      exact (List.sorted_cons.1 hsorted).1 r hrf
  · have hfind : s.reservas.find? (fun x => x.id == sel.id) = some sel :=
      find?_key_eq_of_nodup hnd hselmem
    have hfe : (updFirst (fun q => q.id == sel.id)
        (fun q => { q with estado := .notificada,
                           fechaNotificacion := some n,
                           fechaExpiracion := some (n + 3 * 86400) })
        s.reservas).find? (fun x => x.id == sel.id) =
        ((s.reservas.find? (fun x => x.id == sel.id)).map
          (fun q => { q with estado := .notificada,
                             fechaNotificacion := some n,
                             fechaExpiracion := some (n + 3 * 86400) })) := by
      apply find?_updFirst_eq
      intro x
      rfl
    show (updFirst _ _ s.reservas).find? (fun x => x.id == sel.id) = _
    rw [hfe, hfind, Option.map_some']
  · intro r hr hne
    have : (r.id == sel.id) = false := beq_eq_false_iff_ne.2 hne
    exact mem_updFirst_of_not hr this

def c7State : LibState :=
  { usuarios := [{ id := 10, rol := .bibliotecario, activo := true,
                   multas := 0 },
                 { id := 1, rol := .usuario, activo := true, multas := 0 },
                 { id := 2, rol := .usuario, activo := true, multas := 0 },
                 { id := 3, rol := .usuario, activo := true, multas := 0 }],
    libros := [{ id := 7, copiasDisponibles := 2, copiasTotal := 3,
                 estado := .disponible }],
    prestamos := [],
    reservas := [{ id := 301, usuario := 1, libro := 7, fechaReserva := 10,
                   estado := .pendiente, fechaNotificacion := none,
                   fechaExpiracion := none, prioridad := 1 },
                 { id := 302, usuario := 2, libro := 7, fechaReserva := 20,
                   estado := .pendiente, fechaNotificacion := none,
                   fechaExpiracion := none, prioridad := 2 },
                 { id := 303, usuario := 3, libro := 7, fechaReserva := 30,
                   estado := .pendiente, fechaNotificacion := none,
                   fechaExpiracion := none, prioridad := 3 }],
    nextPrestamoId := 100,
    nextReservaId := 400 }

/-- Concrete instance of `c7_theorem`: staff user 10 notifies availability
of book 7 (2 copies, 3 pending reservations) at time 1000; the priority-1
reservation (id 301) is selected and rewritten, the rest untouched. -/
theorem c7_witness :
    ∃ lid sel, (some 7 : Option Nat) = some lid ∧ sel ∈ c7State.reservas ∧
      sel.libro = lid ∧ sel.estado = .pendiente ∧
      (∀ r ∈ c7State.reservas, r.libro = lid → r.estado = .pendiente →
        notifLe sel r) ∧
      findReserva (exec c7State (.notificarDisponibilidad 10 (some 7) 1000))
        sel.id = some { sel with
          estado := .notificada, fechaNotificacion := some 1000,
          fechaExpiracion := some (1000 + 3 * 86400) } ∧
      (∀ r ∈ c7State.reservas, r.id ≠ sel.id →
        r ∈ (exec c7State
          (.notificarDisponibilidad 10 (some 7) 1000)).reservas) ∧
      (exec c7State (.notificarDisponibilidad 10 (some 7) 1000)).libros =
        c7State.libros ∧
      (exec c7State (.notificarDisponibilidad 10 (some 7) 1000)).prestamos =
        c7State.prestamos ∧
      (exec c7State (.notificarDisponibilidad 10 (some 7) 1000)).usuarios =
        c7State.usuarios :=
  c7_theorem c7State 10 (some 7) 1000
    (exec c7State (.notificarDisponibilidad 10 (some 7) 1000))
    (by decide) (by decide)

/-! ### Claim C3: re-rank to 1..N on cancel; new reserve gets N + 1 -/

/-- The reservations of book `b` with status in {pendiente, notificada} -
the `Reserva.objects.filter(libro=..., estado__in=['pendiente',
'notificada'])` query shared by `cancelar_reserva` (`views.py` lines
1263-1266) and `crear_reserva` (lines 1075-1079). -/
def activeReservasOf (s : LibState) (b : Nat) : List Reserva :=
  s.reservas.filter (fun q => q.libro == b && activaReserva q)

theorem activeReservasOf_set (s : LibState) (rs : List Reserva) (b : Nat) :
    activeReservasOf { s with reservas := rs } b =
      rs.filter (fun q => q.libro == b && activaReserva q) := rfl

theorem length_assignFrom : ∀ (n : Nat) (l : List Reserva),
    (assignFrom n l).length = l.length
  | _, [] => rfl
  | n, q :: qs => by
    simp only [assignFrom, List.length_cons, length_assignFrom (n + 1) qs]

theorem map_prioridad_assignFrom : ∀ (n : Nat) (l : List Reserva),
    (assignFrom n l).map Reserva.prioridad =
      (List.range' n l.length).map (fun k => (k : Int))
  | _, [] => rfl
  | n, q :: qs => by
    show (n : Int) :: (assignFrom (n + 1) qs).map Reserva.prioridad = _
    rw [map_prioridad_assignFrom (n + 1) qs]
    rfl

theorem mem_assignFrom : ∀ {n : Nat} {l : List Reserva} {x : Reserva},
    x ∈ assignFrom n l →
      ∃ b ∈ l, ∃ k : Nat, x = { b with prioridad := (k : Int) }
  | _, [], _, h => by cases h
  | n, q :: qs, x, h => by
    rcases List.mem_cons.1 h with h | h
    · exact ⟨q, List.mem_cons_self q qs, n, h⟩
    · obtain ⟨b, hb, k, hk⟩ := mem_assignFrom h
      exact ⟨b, List.mem_cons_of_mem q hb, k, hk⟩

theorem reservaLe_prioridad {a b : Reserva} {j k : Int} :
    reservaLe { a with prioridad := j } { b with prioridad := k } ↔
      reservaLe a b :=
  Iff.rfl

theorem pairwise_assignFrom : ∀ {n : Nat} {l : List Reserva},
    List.Pairwise reservaLe l → List.Pairwise reservaLe (assignFrom n l)
  | _, [], _ => List.Pairwise.nil
  | n, q :: qs, h => by
    rw [List.pairwise_cons] at h
    refine List.Pairwise.cons ?_ (pairwise_assignFrom h.2)
    intro x hx
    obtain ⟨b, hb, k, hk⟩ := mem_assignFrom hx
    subst hk
    exact reservaLe_prioridad.2 (h.1 b hb)

/-- After the re-rank of `cancelar_reserva`, the book's active reservations
are exactly the re-ranked block: the untouched rows all fail the filter and
priority updates do not change book or status. -/
theorem filter_rerank (b : Nat) (rs1 : List Reserva) :
    ((rs1.filter (fun q => !(q.libro == b && activaReserva q))) ++
        assignFrom 1 (List.insertionSort reservaLe
          (rs1.filter (fun q => q.libro == b && activaReserva q)))).filter
      (fun q => q.libro == b && activaReserva q) =
      assignFrom 1 (List.insertionSort reservaLe
        (rs1.filter (fun q => q.libro == b && activaReserva q))) := by
  rw [List.filter_append]
  have h1 : (rs1.filter (fun q => !(q.libro == b && activaReserva q))).filter
      (fun q => q.libro == b && activaReserva q) = [] := by
    rw [List.filter_eq_nil_iff]
    intro x hx
    have hx2 := (List.mem_filter.1 hx).2
    simp only [Bool.not_eq_eq_eq_not, Bool.not_true] at hx2
    simp [hx2]
  have h2 : (assignFrom 1 (List.insertionSort reservaLe
      (rs1.filter (fun q => q.libro == b && activaReserva q)))).filter
      (fun q => q.libro == b && activaReserva q) =
      assignFrom 1 (List.insertionSort reservaLe
        (rs1.filter (fun q => q.libro == b && activaReserva q))) := by
    rw [List.filter_eq_self]
    intro x hx
    obtain ⟨c, hc, k, hk⟩ := mem_assignFrom hx
    have hcm : c ∈ rs1.filter (fun q => q.libro == b && activaReserva q) :=
      (List.perm_insertionSort reservaLe _).subset hc
    subst hk
    exact (List.mem_filter.1 hcm).2
  rw [h1, h2, List.nil_append]

/-- C3: (cancel) after any successful Cancel of a reservation, the cancelled
book's reservations with status in {pendiente, notificada} carry priorities
exactly `1, 2, ..., N` in order - no gaps, no duplicates - listed in
ascending creation-timestamp order (`reservaLe`), and `N` is one less than
the book's active-reservation count before the cancel; (reserve) a new
Reserve on a book with `N` active reservations creates a pending
reservation with priority `N + 1` (fresh-id hypothesis: no existing
reservation already uses the id counter). -/
theorem c3_theorem :
    (∀ (s : LibState) (a rid : Nat) (s' : LibState),
      step s (.cancelarReserva a rid) = .ok s' →
      ∃ r, findReserva s rid = some r ∧
        (activeReservasOf s' r.libro).map Reserva.prioridad =
          (List.range' 1 (activeReservasOf s' r.libro).length).map
            (fun k => (k : Int)) ∧
        List.Pairwise reservaLe (activeReservasOf s' r.libro) ∧
        (activeReservasOf s' r.libro).length + 1 =
          (activeReservasOf s r.libro).length) ∧
    (∀ (s : LibState) (a lid : Nat) (n : Int) (s' : LibState),
      (∀ q ∈ s.reservas, q.id ≠ s.nextReservaId) →
      step s (.crearReserva a lid n) = .ok s' →
      ∃ q, findReserva s' s.nextReservaId = some q ∧ q.libro = lid ∧
        q.estado = .pendiente ∧
        q.prioridad = ((activeReservasOf s lid).length : Int) + 1) := by
  constructor
  · intro s a rid s' h
    simp only [step] at h
    rw [cancelarReserva_ok_iff] at h
    obtain ⟨u, r, hu, hr, hown, hst, hs'⟩ := h
    subst hs'
    obtain ⟨l1, l2, hdec, hl1, hupd⟩ :=
      updFirst_decomp (fun q => { q with estado := EstadoReserva.cancelada }) hr
    refine ⟨r, hr, ?_, ?_, ?_⟩
    · rw [activeReservasOf_set, filter_rerank, map_prioridad_assignFrom,
        length_assignFrom]
    · rw [activeReservasOf_set, filter_rerank]
      exact pairwise_assignFrom (List.sorted_insertionSort reservaLe _)
    · rw [activeReservasOf_set, filter_rerank, length_assignFrom,
        (List.perm_insertionSort reservaLe _).length_eq, hupd]
      unfold activeReservasOf
      rw [hdec]
      have hpr : (r.libro == r.libro && activaReserva r) = true := by
        rcases hst with h | h <;> simp [activaReserva, h]
      have hprc : ({ r with estado := EstadoReserva.cancelada }.libro ==
          r.libro && activaReserva
            { r with estado := EstadoReserva.cancelada }) = false := by
        simp [activaReserva]
      simp only [List.filter_append, List.filter_cons, hpr, hprc,
        Bool.false_eq_true, if_false, if_true, List.length_append,
        List.length_cons]
      omega
  · intro s a lid n s' hfresh h
    simp only [step] at h
    rw [crearReserva_ok_iff] at h
    obtain ⟨u, l, hu, hm, hact, hdup, hl, hc, hmant, hs'⟩ := h
    subst hs'
    have hlid : l.id = lid := by
      have := List.find?_some hl
      simpa using this
    subst hlid
    refine ⟨{ id := s.nextReservaId, usuario := u.id, libro := l.id,
              fechaReserva := n, estado := .pendiente,
              fechaNotificacion := none, fechaExpiracion := none,
              prioridad := ((s.reservas.filter
                (fun r => r.libro == l.id && activaReserva r)).length : Int)
                + 1 },
      ?_, rfl, rfl, rfl⟩
    simp only [findReserva]
    rw [List.find?_append]
    have h1 : s.reservas.find? (fun q => q.id == s.nextReservaId) = none :=
      List.find?_eq_none.2 (fun q hq => by simp [hfresh q hq])
    rw [h1]
    simp [List.find?_cons]

def c3State : LibState :=
  { usuarios := [{ id := 1, rol := .usuario, activo := true, multas := 0 },
                 { id := 2, rol := .usuario, activo := true, multas := 0 },
                 { id := 3, rol := .usuario, activo := true, multas := 0 },
                 { id := 4, rol := .usuario, activo := true, multas := 0 }],
    libros := [{ id := 9, copiasDisponibles := 0, copiasTotal := 2,
                 estado := .agotado }],
    prestamos := [],
    reservas := [{ id := 401, usuario := 1, libro := 9, fechaReserva := 10,
                   estado := .pendiente, fechaNotificacion := none,
                   fechaExpiracion := none, prioridad := 1 },
                 { id := 402, usuario := 2, libro := 9, fechaReserva := 20,
                   estado := .pendiente, fechaNotificacion := none,
                   fechaExpiracion := none, prioridad := 2 },
                 { id := 403, usuario := 3, libro := 9, fechaReserva := 30,
                   estado := .pendiente, fechaNotificacion := none,
                   fechaExpiracion := none, prioridad := 3 }],
    nextPrestamoId := 100,
    nextReservaId := 404 }

/-- Concrete instance of `c3_theorem`, mirroring Scenario C: user 2 cancels
the priority-2 reservation of book 9 (3 pendings) and the survivors re-rank
to priorities 1..2 in creation order; user 4 reserves book 9, which has 3
active reservations, and the new pending reservation gets priority 4. -/
theorem c3_witness :
    (∃ r, findReserva c3State 402 = some r ∧
      (activeReservasOf (exec c3State (.cancelarReserva 2 402)) r.libro).map
        Reserva.prioridad =
        (List.range' 1 (activeReservasOf
          (exec c3State (.cancelarReserva 2 402)) r.libro).length).map
          (fun k => (k : Int)) ∧
      List.Pairwise reservaLe
        (activeReservasOf (exec c3State (.cancelarReserva 2 402)) r.libro) ∧
      (activeReservasOf (exec c3State (.cancelarReserva 2 402)) r.libro).length
        + 1 = (activeReservasOf c3State r.libro).length) ∧
    (∃ q, findReserva (exec c3State (.crearReserva 4 9 50))
        c3State.nextReservaId = some q ∧ q.libro = 9 ∧
      q.estado = .pendiente ∧
      q.prioridad = ((activeReservasOf c3State 9).length : Int) + 1) :=
  ⟨c3_theorem.1 c3State 2 402 (exec c3State (.cancelarReserva 2 402))
      (by decide),
   c3_theorem.2 c3State 4 9 50 (exec c3State (.crearReserva 4 9 50))
      (by decide) (by decide)⟩
